import Mathlib

/-
Verification of the provider-dispatch and response-normalization pipeline of
src/api/analyze.js (the english-collector repository).  The JavaScript code is
shallowly embedded: JS JSON values become the inductive type JsVal, the builtin
JSON.parse and JSON.stringify are modelled by an executable parser and
serializer over JsVal, and every fallible step returns an Except value whose
error constructor records which kind of JS exception was raised.
-/

set_option linter.unusedVariables false

/-- Model of a JavaScript JSON value.  JS numbers are modelled as rationals;
this is exact for every numeral appearing in the claims (engine float rounding
is not observable in any claim). -/
inductive JsVal where
  | null
  | bool (b : Bool)
  | num (q : Rat)
  | str (s : String)
  | arr (elems : List JsVal)
  | obj (fields : List (String × JsVal))
deriving Repr

/-- JS truthiness of a value, as used by the source in conditions such as
`if (!parsed.translation)` and `k.word || ""`. -/
def JsVal.truthy : JsVal → Bool
  | .null => false
  | .bool b => b
  | .num q => !(q == 0)
  | .str s => !(s == "")
  | .arr _ => true
  | .obj _ => true

/-- Truthiness of a possibly-absent value: the JS `undefined` case is `none`
and is falsy. -/
def jsOptTruthy : Option JsVal → Bool
  | some v => v.truthy
  | none => false

/-- Lookup of an object property (first match; parsed objects never hold
duplicate keys because insertion overwrites, mirroring JSON.parse). -/
def objGet : List (String × JsVal) → String → Option JsVal
  | [], _ => none
  | (k, v) :: rest, key => if k == key then some v else objGet rest key

/-- Property write: overwrite in place when the key exists (keeping its
position, as JS property assignment does), otherwise append. -/
def objSet : List (String × JsVal) → String → JsVal → List (String × JsVal)
  | [], key, v => [(key, v)]
  | (k, w) :: rest, key, v =>
      if k == key then (k, v) :: rest else (k, w) :: objSet rest key v

/-- Message of the TypeError V8 raises for a property read on null.  The model
omits the quote characters around the property name. -/
def nullReadMsg (key : String) : String :=
  "Cannot read properties of null (reading " ++ key ++ ")"

/-- Plain JS property access `v.key`: a read on null throws a TypeError, a
read on any other non-object value yields undefined (`none`). -/
def jsGet (v : JsVal) (key : String) : Except String (Option JsVal) :=
  match v with
  | .null => .error (nullReadMsg key)
  | .obj f => .ok (objGet f key)
  | _ => .ok none

/-- Property access on a value already known not to be null or undefined
(after an optional-chaining guard); never throws. -/
def jsGetND (v : JsVal) (key : String) : Option JsVal :=
  match v with
  | .obj f => objGet f key
  | _ => none

/-- Property update `v.key = x`; on a non-object the write is silently
ignored, as in sloppy-mode JS (the source never hits that case). -/
def jsSet (v : JsVal) (key : String) (x : JsVal) : JsVal :=
  match v with
  | .obj f => .obj (objSet f key x)
  | other => other

/-- One optional-chaining step `o?.step`: null or undefined short-circuits to
undefined, otherwise the step function is applied. -/
def optChain (o : Option JsVal) (f : JsVal → Option JsVal) : Option JsVal :=
  match o with
  | some .null => none
  | some v => f v
  | none => none

/-- Index access `v?.[0]` as used in the provider text-extraction paths. -/
def jsIndex0 (v : JsVal) : Option JsVal :=
  match v with
  | .arr l => l.head?
  | .obj f => objGet f "0"
  | .str s =>
      match s.data with
      | [] => none
      | c :: _ => some (.str (String.mk [c]))
  | _ => none

/-- JS string conversion, used when an Error message is built from a
non-string value (number formatting is approximated through Rat). -/
def jsToString : JsVal → String
  | .null => "null"
  | .bool b => if b then "true" else "false"
  | .num q => toString q
  | .str s => s
  | .arr _ => ""
  | .obj _ => "[object Object]"

/-- Whitespace class of the JS regex `\s` and of `String.prototype.trim`. -/
def isJsWs (c : Char) : Bool :=
  c == ' ' || c == '\t' || c == '\n' || c == '\r'
    || c.toNat == 0x0b || c.toNat == 0x0c
    || c.toNat == 0xA0 || c.toNat == 0x1680
    || (decide (0x2000 ≤ c.toNat) && decide (c.toNat ≤ 0x200A))
    || c.toNat == 0x2028 || c.toNat == 0x2029 || c.toNat == 0x202F
    || c.toNat == 0x205F || c.toNat == 0x3000 || c.toNat == 0xFEFF

/-- Model of `text.trim()`. -/
def jsTrim (cs : List Char) : List Char :=
  ((cs.dropWhile isJsWs).reverse.dropWhile isJsWs).reverse

/-- Case-insensitive literal prefix removal, the building block of the
code-fence regexes (all of which carry the `i` flag). -/
def dropPrefixCI : List Char → List Char → Option (List Char)
  | [], cs => some cs
  | _ :: _, [] => none
  | p :: ps, c :: cs => if p.toLower == c.toLower then dropPrefixCI ps cs else none

def fenceJson : List Char := "```json".data

def fenceBare : List Char := "```".data

/-- The anchored replace `replace(/^\x60\x60\x60json\s*/i, "")` of source
line 117 (backticks written \x60 here): remove a leading ```json marker,
case-insensitively, together with the whitespace after it. -/
def stripLeadJson (cs : List Char) : List Char :=
  match dropPrefixCI fenceJson cs with
  | some rest => rest.dropWhile isJsWs
  | none => cs

/-- The anchored replace `replace(/^\x60\x60\x60\s*/i, "")` of source line
117: remove a leading bare ``` marker together with trailing whitespace. -/
def stripLeadBare (cs : List Char) : List Char :=
  match dropPrefixCI fenceBare cs with
  | some rest => rest.dropWhile isJsWs
  | none => cs

/-- The replace `replace(/\s*\x60\x60\x60$/i, "")` of source line 117:
remove a trailing ``` marker together with the whitespace run before it. -/
def stripTrail (cs : List Char) : List Char :=
  match dropPrefixCI fenceBare cs.reverse with
  | some rest => (rest.dropWhile isJsWs).reverse
  | none => cs

/-- The three sequential fence-stripping replaces of source line 117, in
their source order. -/
def stripFences (cs : List Char) : List Char :=
  stripTrail (stripLeadBare (stripLeadJson cs))

/-- The greedy JSON-candidate regex of the source, line 119: the match of
`/\x7b[\s\S]*\x7d/` is the substring from the first opening brace through the
last closing brace, when such a span exists. -/
def braceSpan (cs : List Char) : Option (List Char) :=
  match cs.dropWhile (fun c => !(c == '{')) with
  | [] => none
  | t =>
      match (t.reverse.dropWhile (fun c => !(c == '}'))).reverse with
      | [] => none
      | u => some u

/-- Whitespace accepted by the JSON grammar (JSON.parse). -/
def isJsonWs (c : Char) : Bool :=
  c == ' ' || c == '\t' || c == '\n' || c == '\r'

def skipJsonWs (cs : List Char) : List Char :=
  cs.dropWhile isJsonWs

def hexVal (c : Char) : Option Nat :=
  if decide (48 ≤ c.toNat) && decide (c.toNat ≤ 57) then some (c.toNat - 48)
  else if decide (97 ≤ c.toNat) && decide (c.toNat ≤ 102) then some (c.toNat - 87)
  else if decide (65 ≤ c.toNat) && decide (c.toNat ≤ 70) then some (c.toNat - 55)
  else none

/-- Value of a four-hex-digit escape code, when all digits are valid. -/
def hex4 (a b c d : Char) : Option Nat :=
  Option.bind (hexVal a) (fun va =>
    Option.bind (hexVal b) (fun vb =>
      Option.bind (hexVal c) (fun vc =>
        Option.bind (hexVal d) (fun vd =>
          some (((va * 16 + vb) * 16 + vc) * 16 + vd)))))

/-- The single-character escape sequences of the JSON grammar. -/
def simpleEscape (e : Char) : Option Char :=
  if e == '"' then some '"'
  else if e == '\\' then some '\\'
  else if e == '/' then some '/'
  else if e == 'b' then some '\x08'
  else if e == 'f' then some '\x0c'
  else if e == 'n' then some '\n'
  else if e == 'r' then some '\r'
  else if e == 't' then some '\t'
  else none

/-- Body of a JSON string literal, after the opening quote: decode escape
sequences up to the closing quote, rejecting raw control characters.  A
\uXXXX escape denoting an invalid scalar value falls back to the default
character (surrogate halves are not representable; no claim touches them). -/
def parseStringBody : List Char → Option (List Char × List Char)
  | [] => none
  | '"' :: rest => some ([], rest)
  | '\\' :: 'u' :: h1 :: h2 :: h3 :: h4 :: rest =>
      match hex4 h1 h2 h3 h4 with
      | some n => (parseStringBody rest).map (fun p => (Char.ofNat n :: p.1, p.2))
      | none => none
  | '\\' :: e :: rest =>
      match simpleEscape e with
      | some c => (parseStringBody rest).map (fun p => (c :: p.1, p.2))
      | none => none
  | c :: rest =>
      if decide (c.toNat < 32) then none
      else (parseStringBody rest).map (fun p => (c :: p.1, p.2))

def takeDigits : List Char → (List Char × List Char)
  | [] => ([], [])
  | c :: cs =>
      if c.isDigit then
        let p := takeDigits cs
        (c :: p.1, p.2)
      else ([], c :: cs)

def digitsVal (ds : List Char) : Nat :=
  ds.foldl (fun a c => 10 * a + (c.toNat - 48)) 0

/-- JSON number grammar: optional minus, integer part without a leading zero,
optional fraction, optional exponent. -/
def parseNumber (cs : List Char) : Option (JsVal × List Char) :=
  let sgn := match cs with
    | '-' :: r => (true, r)
    | _ => (false, cs)
  match takeDigits sgn.2 with
  | ([], _) => none
  | (ds, r1) =>
      if decide (1 < ds.length) && decide (ds.head? = some '0') then none
      else
        let ip : Rat := (digitsVal ds : Nat)
        let frac : Option (Rat × List Char) :=
          match r1 with
          | '.' :: r =>
              match takeDigits r with
              | ([], _) => none
              | (fs, r2) => some (ip + (digitsVal fs : Rat) / (10 : Rat) ^ fs.length, r2)
          | _ => some (ip, r1)
        match frac with
        | none => none
        | some (v1, r2) =>
            let ex : Option (Rat × List Char) :=
              match r2 with
              | 'e' :: r3 =>
                  match (match r3 with
                         | '+' :: rr => ((1 : Int), rr)
                         | '-' :: rr => ((-1 : Int), rr)
                         | _ => ((1 : Int), r3)) with
                  | (es, r4) =>
                      match takeDigits r4 with
                      | ([], _) => none
                      | (es2, r5) =>
                          let ev : Int := es * (digitsVal es2 : Int)
                          some ((if 0 ≤ ev then v1 * (10 : Rat) ^ ev.toNat
                                 else v1 / (10 : Rat) ^ (-ev).toNat), r5)
              | 'E' :: r3 =>
                  match (match r3 with
                         | '+' :: rr => ((1 : Int), rr)
                         | '-' :: rr => ((-1 : Int), rr)
                         | _ => ((1 : Int), r3)) with
                  | (es, r4) =>
                      match takeDigits r4 with
                      | ([], _) => none
                      | (es2, r5) =>
                          let ev : Int := es * (digitsVal es2 : Int)
                          some ((if 0 ≤ ev then v1 * (10 : Rat) ^ ev.toNat
                                 else v1 / (10 : Rat) ^ (-ev).toNat), r5)
              | _ => some (v1, r2)
            match ex with
            | none => none
            | some (v2, r6) => some (.num (if sgn.1 then -v2 else v2), r6)

mutual

/-- Recursive-descent JSON value parser (model of the builtin JSON.parse);
the fuel argument only serves termination and is given a sufficient value by
jsonParse. -/
def parseValue : Nat → List Char → Option (JsVal × List Char)
  | 0, _ => none
  | fuel + 1, cs =>
      match cs with
      | 'n' :: 'u' :: 'l' :: 'l' :: rest => some (.null, rest)
      | 't' :: 'r' :: 'u' :: 'e' :: rest => some (.bool true, rest)
      | 'f' :: 'a' :: 'l' :: 's' :: 'e' :: rest => some (.bool false, rest)
      | '"' :: rest =>
          (parseStringBody rest).map (fun p => (.str (String.mk p.1), p.2))
      | '[' :: rest =>
          (match skipJsonWs rest with
           | ']' :: r2 => some (.arr [], r2)
           | cs2 => (parseElems fuel cs2).map (fun p => (.arr p.1, p.2)))
      | '{' :: rest =>
          (match skipJsonWs rest with
           | '}' :: r2 => some (.obj [], r2)
           | cs2 => (parseFields fuel [] cs2).map (fun p => (.obj p.1, p.2)))
      | _ => parseNumber cs

/-- Comma-separated array elements up to the closing bracket. -/
def parseElems : Nat → List Char → Option (List JsVal × List Char)
  | 0, _ => none
  | fuel + 1, cs => do
      let p ← parseValue fuel cs
      match skipJsonWs p.2 with
      | ',' :: r2 => do
          let q ← parseElems fuel (skipJsonWs r2)
          pure (p.1 :: q.1, q.2)
      | ']' :: r2 => pure ([p.1], r2)
      | _ => none

/-- Comma-separated object members up to the closing brace; a repeated key
overwrites the earlier value in place, as JSON.parse does. -/
def parseFields : Nat → List (String × JsVal) → List Char →
    Option (List (String × JsVal) × List Char)
  | 0, _, _ => none
  | fuel + 1, acc, cs =>
      match cs with
      | '"' :: rest => do
          let kp ← parseStringBody rest
          match skipJsonWs kp.2 with
          | ':' :: r2 => do
              let vp ← parseValue fuel (skipJsonWs r2)
              let acc2 := objSet acc (String.mk kp.1) vp.1
              match skipJsonWs vp.2 with
              | ',' :: r4 => parseFields fuel acc2 (skipJsonWs r4)
              | '}' :: r4 => pure (acc2, r4)
              | _ => none
          | _ => none
      | _ => none

end

/-- Model of JSON.parse: a whole-input parse of one JSON value surrounded by
JSON whitespace. -/
def jsonParse (cs : List Char) : Option JsVal :=
  match parseValue (cs.length + 1) (skipJsonWs cs) with
  | some (v, rest) => if (skipJsonWs rest).isEmpty then some v else none
  | none => none

/-- Classified failures of the embedded pipeline.  parseError and
providerCallError are Error values thrown by the source itself;
jsonSyntaxError models the rejection of the builtin response.json() or
JSON.parse on the recorded text; typeError models a thrown TypeError. -/
inductive CoreError where
  | parseError (msg : String)
  | providerCallError (msg : String)
  | jsonSyntaxError (source : String)
  | typeError (msg : String)
deriving Repr, DecidableEq

/-- Stand-in for the engine-specific SyntaxError message that JSON.parse puts
into the rethrown Error at line 137; no claim depends on its exact text. -/
def jsonSyntaxStandIn : String := "Unexpected token in JSON"

/-- The default `k.field || ""` of the keyword-repair map. -/
def jsOrEmpty : Option JsVal → JsVal
  | some v => if v.truthy then v else .str ""
  | none => .str ""

/-- The keyword-repair arrow of source lines 127 to 133: build a fresh object
with exactly the five canonical fields, each defaulted when falsy; a null
element makes the first property read throw. -/
def coerceKeyword (k : JsVal) : Except String JsVal := do
  let w ← jsGet k "word"
  let p ← jsGet k "phonetic"
  let rt ← jsGet k "roots"
  let og ← jsGet k "origin"
  let mn ← jsGet k "meaning"
  pure (.obj [("word", jsOrEmpty w), ("phonetic", jsOrEmpty p),
              ("roots", jsOrEmpty rt), ("origin", jsOrEmpty og),
              ("meaning", jsOrEmpty mn)])

/-- Array.prototype.map with exception propagation: the first throwing
element aborts the whole map. -/
def mapExcept (f : JsVal → Except String JsVal) :
    List JsVal → Except String (List JsVal)
  | [] => .ok []
  | x :: xs => do
      let y ← f x
      let ys ← mapExcept f xs
      pure (y :: ys)

/-- The coercion step of parseAIResponse, source lines 124 to 135: default a
falsy translation, replace a non-array keywords by an empty array, rebuild
every keyword (the whole array, before slicing), then keep the first five. -/
def coerceParsed (parsed : JsVal) : Except String JsVal := do
  let t ← jsGet parsed "translation"
  let p1 := if jsOptTruthy t then parsed else jsSet parsed "translation" (.str "")
  let kw ← jsGet p1 "keywords"
  let p2 := match kw with
    | some (.arr _) => p1
    | _ => jsSet p1 "keywords" (.arr [])
  let kw2 ← jsGet p2 "keywords"
  let ks := match kw2 with
    | some (.arr l) => l
    | _ => []
  let mapped ← mapExcept coerceKeyword ks
  pure (jsSet p2 "keywords" (.arr (mapped.take 5)))

/-- Steps 4 to 6 of the normalizer on the extracted candidate: JSON.parse and
coercion inside the try block of source lines 122 to 138; any exception is
rethrown as the catch-all parse Error. -/
def parseCandidate (cand : List Char) : Except CoreError JsVal :=
  match jsonParse cand with
  | none => .error (.parseError ("Failed to parse AI response: " ++ jsonSyntaxStandIn))
  | some parsed =>
      match coerceParsed parsed with
      | .error m => .error (.parseError ("Failed to parse AI response: " ++ m))
      | .ok r => .ok r

/-- The full normalizer parseAIResponse of source lines 115 to 139. -/
def parseAIResponse (text : String) : Except CoreError JsVal :=
  match braceSpan (stripFences (jsTrim text.data)) with
  | none => .error (.parseError "Could not parse AI response as JSON")
  | some cand => parseCandidate cand

/-- Decoded request-body fields as destructured by the handler at source line
10; a missing field is the JS undefined, modelled as none. -/
structure RequestBody where
  provider : Option JsVal
  model : Option JsVal
  apiKey : Option JsVal
  prompt : Option JsVal
deriving Repr

inductive ProviderKind where
  | gemini
  | deepseek
  | openrouter
deriving Repr, DecidableEq

/-- The observable decision the handler makes before any outbound call: an
early HTTP response (status and message, no network traffic), or the choice
of one provider adapter to invoke. -/
inductive DispatchAction where
  | respond (status : Nat) (message : String)
  | callAdapter (p : ProviderKind)
deriving Repr, DecidableEq

/-- Strict equality `o === lit` against a string literal. -/
def jsStrictEqStr (o : Option JsVal) (s : String) : Bool :=
  match o with
  | some (.str t) => t == s
  | _ => false

def jsDisplayOpt : Option JsVal → String
  | none => "undefined"
  | some v => jsToString v

/-- The validation and provider-selection logic of the handler, source lines
10 to 23: missing credential or prompt answer 400 before the provider is
inspected; an unregistered provider answers 400 with its identifier in the
message; otherwise exactly one adapter is selected. -/
def handlerDispatch (body : RequestBody) : DispatchAction :=
  if !(jsOptTruthy body.apiKey) then .respond 400 "API key is required"
  else if !(jsOptTruthy body.prompt) then .respond 400 "Prompt is required"
  else if jsStrictEqStr body.provider "gemini" then .callAdapter .gemini
  else if jsStrictEqStr body.provider "deepseek" then .callAdapter .deepseek
  else if jsStrictEqStr body.provider "openrouter" then .callAdapter .openrouter
  else .respond 400 ("Unknown provider: " ++ jsDisplayOpt body.provider)

/-- An upstream HTTP response as the adapters observe it: the ok flag, the
numeric status, and the raw body text handed to response.json(). -/
structure HttpResponse where
  ok : Bool
  status : Nat
  body : String
deriving Repr

/-- The error-message expression `error.error?.message || fallback` shared by
the non-success branches of all three adapters; the outer read throws when
the parsed error body is null. -/
def errMsgVal (e : JsVal) (fallback : String) : Except String String := do
  let oe ← jsGet e "error"
  pure (match optChain oe (fun v => jsGetND v "message") with
        | some v => if v.truthy then jsToString v else fallback
        | none => fallback)

/-- Gemini text extraction `data.candidates?.[0]?.content?.parts?.[0]?.text`,
source line 50. -/
def geminiText (data : JsVal) : Except String (Option JsVal) := do
  let c ← jsGet data "candidates"
  pure (optChain (optChain (optChain (optChain (optChain c jsIndex0)
          (fun v => jsGetND v "content")) (fun v => jsGetND v "parts"))
          jsIndex0) (fun v => jsGetND v "text"))

/-- Chat-style text extraction `data.choices?.[0]?.message?.content`, source
lines 76 and 109 (DeepSeek and OpenRouter). -/
def chatText (data : JsVal) : Except String (Option JsVal) := do
  let c ← jsGet data "choices"
  pure (optChain (optChain (optChain c jsIndex0)
          (fun v => jsGetND v "message")) (fun v => jsGetND v "content"))

/-- Tail of every adapter success branch: `if (!text) throw new Error(noResp);
return parseAIResponse(text)`. -/
def returnParsed (t : Option JsVal) (noRespMsg : String) : Except CoreError JsVal :=
  match t with
  | none => .error (.providerCallError noRespMsg)
  | some tv =>
      if tv.truthy then
        match tv with
        | .str s => parseAIResponse s
        | _ => .error (.typeError "text.trim is not a function")
      else .error (.providerCallError noRespMsg)

/-- Behaviour of callGemini after the fetch resolves, source lines 44 to 52.
On a non-ok response the body is read with a bare response.json(), whose
rejection on an unparsable body propagates as a JSON syntax error. -/
def callGeminiOnResponse (resp : HttpResponse) : Except CoreError JsVal :=
  if resp.ok then
    match jsonParse resp.body.data with
    | none => .error (.jsonSyntaxError resp.body)
    | some data =>
        match geminiText data with
        | .error m => .error (.typeError m)
        | .ok t => returnParsed t "No response from Gemini"
  else
    match jsonParse resp.body.data with
    | none => .error (.jsonSyntaxError resp.body)
    | some e =>
        match errMsgVal e "Gemini API request failed" with
        | .error m => .error (.typeError m)
        | .ok msg => .error (.providerCallError msg)

/-- Behaviour of callDeepSeek after the fetch resolves, source lines 70 to 78;
identical error policy to Gemini with its own messages and text path. -/
def callDeepSeekOnResponse (resp : HttpResponse) : Except CoreError JsVal :=
  if resp.ok then
    match jsonParse resp.body.data with
    | none => .error (.jsonSyntaxError resp.body)
    | some data =>
        match chatText data with
        | .error m => .error (.typeError m)
        | .ok t => returnParsed t "No response from DeepSeek"
  else
    match jsonParse resp.body.data with
    | none => .error (.jsonSyntaxError resp.body)
    | some e =>
        match errMsgVal e "DeepSeek API request failed" with
        | .error m => .error (.typeError m)
        | .ok msg => .error (.providerCallError msg)

/-- Behaviour of callOpenRouter after the fetch resolves, source lines 102 to
111.  Unlike the other adapters, a rejected response.json() on the non-ok
path is caught and replaced by an empty object, and the fallback message is
derived from the HTTP status. -/
def callOpenRouterOnResponse (resp : HttpResponse) : Except CoreError JsVal :=
  if resp.ok then
    match jsonParse resp.body.data with
    | none => .error (.jsonSyntaxError resp.body)
    | some data =>
        match chatText data with
        | .error m => .error (.typeError m)
        | .ok t => returnParsed t "No response from OpenRouter"
  else
    let errorData := (jsonParse resp.body.data).getD (.obj [])
    match errMsgVal errorData ("OpenRouter error " ++ toString resp.status) with
    | .error m => .error (.typeError m)
    | .ok msg => .error (.providerCallError msg)

/-- Spec-side fence stripping, written from the words of claim C7: strip one
leading code-fence marker, which is either ```json case-insensitively or a
bare ```, and one trailing ``` marker, if present (each together with the
adjacent whitespace its regex consumes). -/
def specStripFences (cs : List Char) : List Char :=
  stripTrail (match dropPrefixCI fenceJson cs with
    | some rest => rest.dropWhile isJsWs
    | none =>
        match dropPrefixCI fenceBare cs with
        | some rest => rest.dropWhile isJsWs
        | none => cs)

/-- Spec-side normalizer for claim C7: trim, strip one leading and one
trailing fence marker, take the first opening brace through the last closing
brace as the candidate, fail with the exact ParseError message when no such
span exists, then continue with the shared parse-and-coerce steps. -/
def specNormalize (text : String) : Except CoreError JsVal :=
  match braceSpan (specStripFences (jsTrim text.data)) with
  | none => .error (.parseError "Could not parse AI response as JSON")
  | some cand => parseCandidate cand

/-- Spec-side adapter error-message policy for claim C4: the message parsed
from the error body when present and truthy, else the fallback. -/
def specAdapterErrMsg (e : JsVal) (fallback : String) : String :=
  match jsGetND e "error" with
  | some ev =>
      match jsGetND ev "message" with
      | some mv => if mv.truthy then jsToString mv else fallback
      | none => fallback
  | none => fallback

/-- A canonical keyword entry of the output contract: five string fields. -/
structure KeywordEntry where
  word : String
  phonetic : String
  roots : String
  origin : String
  meaning : String
deriving Repr, DecidableEq

/-- A canonical AnalysisResult of the output contract. -/
structure AnalysisResult where
  translation : String
  keywords : List KeywordEntry
deriving Repr, DecidableEq

def kwToJson (k : KeywordEntry) : JsVal :=
  .obj [("word", .str k.word), ("phonetic", .str k.phonetic),
        ("roots", .str k.roots), ("origin", .str k.origin),
        ("meaning", .str k.meaning)]

def resultToJson (r : AnalysisResult) : JsVal :=
  .obj [("translation", .str r.translation),
        ("keywords", .arr (r.keywords.map kwToJson))]

def hexDigitLower (n : Nat) : Char :=
  if n < 10 then Char.ofNat (48 + n) else Char.ofNat (87 + n)

/-- Escaping of one character inside a JSON string literal, as performed by
JSON.stringify. -/
def escapeChar (c : Char) : List Char :=
  if c == '"' then ['\\', '"']
  else if c == '\\' then ['\\', '\\']
  else if c.toNat == 8 then ['\\', 'b']
  else if c == '\t' then ['\\', 't']
  else if c == '\n' then ['\\', 'n']
  else if c.toNat == 12 then ['\\', 'f']
  else if c == '\r' then ['\\', 'r']
  else if decide (c.toNat < 32) then
    ['\\', 'u', '0', '0', hexDigitLower (c.toNat / 16), hexDigitLower (c.toNat % 16)]
  else [c]

def escapeList : List Char → List Char
  | [] => []
  | c :: cs => escapeChar c ++ escapeList cs

/-- A quoted JSON string literal. -/
def quoteJson (s : String) : List Char :=
  '"' :: (escapeList s.data ++ ['"'])

/-- JSON.stringify of one canonical keyword entry (compact form, insertion
order of the five fields). -/
def serKw (k : KeywordEntry) : List Char :=
  '{' :: (quoteJson "word" ++ (':' :: quoteJson k.word) ++
    (',' :: (quoteJson "phonetic" ++ (':' :: quoteJson k.phonetic))) ++
    (',' :: (quoteJson "roots" ++ (':' :: quoteJson k.roots))) ++
    (',' :: (quoteJson "origin" ++ (':' :: quoteJson k.origin))) ++
    (',' :: (quoteJson "meaning" ++ (':' :: quoteJson k.meaning)))) ++ ['}']

def serKwList : List KeywordEntry → List Char
  | [] => []
  | [k] => serKw k
  | k :: rest => serKw k ++ ',' :: serKwList rest

/-- JSON.stringify of a canonical AnalysisResult: the canonical JSON
serialization whose re-normalization claim C9 is about. -/
def serializeResult (r : AnalysisResult) : List Char :=
  '{' :: (quoteJson "translation" ++ (':' :: quoteJson r.translation) ++
    (',' :: (quoteJson "keywords" ++
      (':' :: ('[' :: (serKwList r.keywords ++ [']'])))))) ++ ['}']

/-- The candidate-extraction stage of the normalizer: trim, strip fences,
take first opening brace through last closing brace. -/
def extractCandidate (text : String) : Option (List Char) :=
  braceSpan (stripFences (jsTrim text.data))

/-- Whether a possibly-absent value is a string. -/
def isStrVal : Option JsVal → Bool
  | some (.str _) => true
  | _ => false

/-- Whether a list of JSON values contains a null element. -/
def hasNullElem : List JsVal → Bool
  | [] => false
  | .null :: _ => true
  | _ :: rest => hasNullElem rest

/-- The keywords list the coercion step iterates over: the keywords property
when it is an array, otherwise the empty list. -/
def keywordsOf (v : JsVal) : List JsVal :=
  match jsGetND v "keywords" with
  | some (.arr l) => l
  | _ => []

/-- The keywords array of a normalized result, when present. -/
def resultKeywords (r : JsVal) : Option (List JsVal) :=
  match jsGetND r "keywords" with
  | some (.arr l) => some l
  | _ => none

/-- A keyword entry of the canonical output shape: an object holding exactly
the five contract fields, in insertion order. -/
def isCanonicalEntry : JsVal → Bool
  | .obj [("word", _), ("phonetic", _), ("roots", _), ("origin", _), ("meaning", _)] => true
  | _ => false

/-- Spec-side keyword repair for claims C5 and C10: a fresh entry holding
exactly the five contract fields, each defaulted independently to the empty
string when falsy or absent. -/
def specRepairEntry (k : JsVal) : JsVal :=
  .obj [("word", jsOrEmpty (jsGetND k "word")),
        ("phonetic", jsOrEmpty (jsGetND k "phonetic")),
        ("roots", jsOrEmpty (jsGetND k "roots")),
        ("origin", jsOrEmpty (jsGetND k "origin")),
        ("meaning", jsOrEmpty (jsGetND k "meaning"))]

/-- Whether an adapter outcome is a ProviderCallError. -/
def isProviderCallError : Except CoreError JsVal → Bool
  | .error (.providerCallError _) => true
  | _ => false

/-- The translation-defaulting step of the coercion, as a standalone
function on the parsed value (source line 124). -/
def fixTranslation (parsed : JsVal) : JsVal :=
  if jsOptTruthy (jsGetND parsed "translation") then parsed
  else jsSet parsed "translation" (.str "")

/-- The keywords-array-defaulting step of the coercion, as a standalone
function on the parsed value (source line 125). -/
def fixKeywordsArr (p1 : JsVal) : JsVal :=
  match jsGetND p1 "keywords" with
  | some (.arr _) => p1
  | _ => jsSet p1 "keywords" (.arr [])

lemma objGet_objSet_self (f : List (String × JsVal)) (k : String) (v : JsVal) :
    objGet (objSet f k v) k = some v := by
  induction f with
  | nil => simp [objSet, objGet]
  | cons hd tl ih =>
      obtain ⟨k2, v2⟩ := hd
      by_cases h : k2 = k
      · simp [objSet, objGet, h]
      · simp [objSet, objGet, h, ih]

lemma objGet_objSet_ne (f : List (String × JsVal)) (k k2 : String) (v : JsVal)
    (h : k ≠ k2) : objGet (objSet f k v) k2 = objGet f k2 := by
  induction f with
  | nil => simp [objSet, objGet, h]
  | cons hd tl ih =>
      obtain ⟨k3, v3⟩ := hd
      by_cases h2 : k3 = k
      · subst h2
        simp [objSet, objGet, h]
      · simp [objSet, objGet, h2, ih]

/-- C3: for every provider identifier outside the registered set, with the
credential and prompt present, the handler answers 400 with the message
Unknown provider: followed by the identifier, and selects no adapter, so no
outbound call is attempted. -/
theorem c3_unknown_provider (s : String)
    (hg : s ≠ "gemini") (hd : s ≠ "deepseek") (ho : s ≠ "openrouter")
    (mo ak pr : Option JsVal)
    (hak : jsOptTruthy ak = true) (hpr : jsOptTruthy pr = true) :
    handlerDispatch ⟨some (.str s), mo, ak, pr⟩ =
      .respond 400 ("Unknown provider: " ++ s) := by
  simp [handlerDispatch, hak, hpr, jsStrictEqStr, hg, hd, ho, jsDisplayOpt, jsToString]

theorem c3_witness :
    handlerDispatch ⟨some (.str "gpt4"), none, some (.str "k"), some (.str "p")⟩ =
      .respond 400 "Unknown provider: gpt4" :=
  c3_unknown_provider "gpt4" (by decide) (by decide) (by decide)
    none (some (.str "k")) (some (.str "p")) (by decide) (by decide)

/-- C6: a missing or empty credential or prompt makes the handler answer 400
with the corresponding validation message before the provider field is even
inspected, so no adapter is selected and no outbound call is issued. -/
theorem c6_validation (body : RequestBody)
    (h : body.apiKey = none ∨ body.apiKey = some (.str "") ∨
         body.prompt = none ∨ body.prompt = some (.str "")) :
    handlerDispatch body = .respond 400 "API key is required" ∨
    handlerDispatch body = .respond 400 "Prompt is required" := by
  rcases h with h | h | h | h
  · left
    simp [handlerDispatch, h, jsOptTruthy]
  · left
    simp [handlerDispatch, h, jsOptTruthy, JsVal.truthy]
  · cases hak : jsOptTruthy body.apiKey
    · left
      simp [handlerDispatch, hak]
    · right
      simp [handlerDispatch, hak, h, show jsOptTruthy none = false from rfl]
  · cases hak : jsOptTruthy body.apiKey
    · left
      simp [handlerDispatch, hak]
    · right
      simp [handlerDispatch, hak, h,
        show jsOptTruthy (some (.str "")) = false from rfl]

theorem c6_witness :
    handlerDispatch ⟨some (.str "gemini"), some (.str "m"), some (.str ""), some (.str "p")⟩ =
        .respond 400 "API key is required" ∨
    handlerDispatch ⟨some (.str "gemini"), some (.str "m"), some (.str ""), some (.str "p")⟩ =
        .respond 400 "Prompt is required" :=
  c6_validation ⟨some (.str "gemini"), some (.str "m"), some (.str ""), some (.str "p")⟩
    (Or.inr (Or.inl rfl))

/-- C2 counterexample: on the input whose parsed translation is the number 5,
the normalizer succeeds but returns a result whose translation field is still
the number 5, not a string, contradicting the claim that the translation of a
returned result is always a string. -/
theorem c2_counterexample :
    parseAIResponse "\x7b\"translation\":5,\"keywords\":[]\x7d" =
        .ok (.obj [("translation", .num 5), ("keywords", .arr [])]) ∧
    isStrVal (jsGetND (.obj [("translation", .num 5), ("keywords", .arr [])])
        "translation") = false :=
  ⟨rfl, rfl⟩

/-- C1 counterexample: the input consists of a brace-delimited candidate that
parses as JSON (step 4 succeeds, first conjunct), yet the normalizer does not
return a result: the keyword-repair map throws on the null element and the
catch converts it into a ParseError, contradicting the claim that coercion
never fails once step 4 succeeds. -/
theorem c1_counterexample :
    jsonParse "\x7b\"keywords\":[null]\x7d".data =
        some (.obj [("keywords", .arr [.null])]) ∧
    parseAIResponse "\x7b\"keywords\":[null]\x7d" =
        .error (.parseError
          "Failed to parse AI response: Cannot read properties of null (reading word)") :=
  ⟨rfl, rfl⟩

/-- C4 counterexample: a non-success Gemini response whose error body is not
parsable JSON does not produce a ProviderCallError at all: the bare
response.json() rejection (a JSON syntax error) propagates instead,
contradicting the claim that the adapter never fails with a different error
kind on a non-success response. -/
theorem c4_counterexample :
    callGeminiOnResponse ⟨false, 401, "bad key"⟩ =
        .error (.jsonSyntaxError "bad key") ∧
    isProviderCallError (callGeminiOnResponse ⟨false, 401, "bad key"⟩) = false :=
  ⟨rfl, rfl⟩

lemma coerceKeyword_not_null (k : JsVal) (h : k ≠ .null) :
    coerceKeyword k = .ok (specRepairEntry k) := by
  cases k with
  | null => exact absurd rfl h
  | bool b => rfl
  | num q => rfl
  | str s => rfl
  | arr l => rfl
  | obj f => rfl

lemma mapExcept_cons (f : JsVal → Except String JsVal) (k : JsVal) (rest : List JsVal) :
    mapExcept f (k :: rest) =
      match f k with
      | .error e => .error e
      | .ok y =>
          match mapExcept f rest with
          | .error e => .error e
          | .ok ys => .ok (y :: ys) := by
  cases hf : f k with
  | error e => rw [mapExcept, hf]; rfl
  | ok y =>
      cases hm : mapExcept f rest with
      | error e => rw [mapExcept, hf, hm]; rfl
      | ok ys => rw [mapExcept, hf, hm]; rfl

lemma hasNullElem_cons_ne (k : JsVal) (rest : List JsVal) (h : k ≠ .null) :
    hasNullElem (k :: rest) = hasNullElem rest := by
  cases k with
  | null => exact absurd rfl h
  | bool b => rfl
  | num q => rfl
  | str s => rfl
  | arr l => rfl
  | obj f => rfl

lemma mapExcept_coerce_ok (ks : List JsVal) (h : hasNullElem ks = false) :
    mapExcept coerceKeyword ks = .ok (ks.map specRepairEntry) := by
  induction ks with
  | nil => rfl
  | cons k rest ih =>
      have hk : k ≠ .null := by
        intro he
        subst he
        simp [hasNullElem] at h
      rw [hasNullElem_cons_ne k rest hk] at h
      rw [mapExcept_cons, coerceKeyword_not_null k hk, ih h]
      rfl

lemma mapExcept_coerce_inv (ks : List JsVal) (l : List JsVal)
    (h : mapExcept coerceKeyword ks = .ok l) :
    hasNullElem ks = false ∧ l = ks.map specRepairEntry := by
  induction ks generalizing l with
  | nil =>
      have h2 : (Except.ok [] : Except String (List JsVal)) = .ok l := h
      cases h2
      exact ⟨rfl, rfl⟩
  | cons k rest ih =>
      rw [mapExcept_cons] at h
      cases hf : coerceKeyword k with
      | error e => rw [hf] at h; exact Except.noConfusion h
      | ok y =>
          rw [hf] at h
          cases hm : mapExcept coerceKeyword rest with
          | error e => rw [hm] at h; exact Except.noConfusion h
          | ok ys =>
              rw [hm] at h
              have h2 : (Except.ok (y :: ys) : Except String (List JsVal)) = .ok l := h
              cases h2
              have hk : k ≠ .null := by
                intro he
                subst he
                rw [show coerceKeyword JsVal.null =
                      .error (nullReadMsg "word") from rfl] at hf
                exact Except.noConfusion hf
              obtain ⟨h3, h4⟩ := ih ys hm
              refine ⟨by rw [hasNullElem_cons_ne k rest hk]; exact h3, ?_⟩
              rw [coerceKeyword_not_null k hk] at hf
              have h5 : specRepairEntry k = y := (Except.ok.injEq _ _).mp hf
              rw [List.map, h5, h4]

lemma jsOrEmpty_falsy (o : Option JsVal) (h : jsOptTruthy o = false) :
    jsOrEmpty o = .str "" := by
  cases o with
  | none => rfl
  | some v =>
      simp [jsOptTruthy] at h
      simp [jsOrEmpty, h]

lemma jsOrEmpty_truthy (o : Option JsVal) (h : jsOptTruthy o = true) :
    o = some (jsOrEmpty o) := by
  cases o with
  | none => simp [jsOptTruthy] at h
  | some v =>
      simp [jsOptTruthy] at h
      simp [jsOrEmpty, h]

lemma fixTranslation_obj (fs : List (String × JsVal)) :
    ∃ fs2, fixTranslation (.obj fs) = .obj fs2 ∧
      objGet fs2 "keywords" = objGet fs "keywords" ∧
      objGet fs2 "translation" = some (jsOrEmpty (objGet fs "translation")) ∧
      (∀ key, key ≠ "translation" → objGet fs2 key = objGet fs key) := by
  cases ht : jsOptTruthy (objGet fs "translation") with
  | true =>
      refine ⟨fs, ?_, rfl, ?_, fun key _ => rfl⟩
      · simp [fixTranslation, jsGetND, ht]
      · exact jsOrEmpty_truthy _ ht
  | false =>
      refine ⟨objSet fs "translation" (.str ""), ?_, ?_, ?_, ?_⟩
      · simp [fixTranslation, jsGetND, ht, jsSet]
      · exact objGet_objSet_ne fs "translation" "keywords" _ (by decide)
      · rw [objGet_objSet_self, jsOrEmpty_falsy _ ht]
      · intro key hk
        exact objGet_objSet_ne fs "translation" key _ (fun he => hk he.symm)

lemma coerceParsed_eq (fs : List (String × JsVal)) :
    coerceParsed (.obj fs) = (do
      let p1 := fixTranslation (.obj fs)
      let kw ← jsGet p1 "keywords"
      let p2 := match kw with
        | some (.arr _) => p1
        | _ => jsSet p1 "keywords" (.arr [])
      let kw2 ← jsGet p2 "keywords"
      let ks := match kw2 with
        | some (.arr l) => l
        | _ => []
      let mapped ← mapExcept coerceKeyword ks
      pure (jsSet p2 "keywords" (.arr (mapped.take 5)))) := rfl

lemma keywordsOf_obj (fs : List (String × JsVal)) :
    keywordsOf (.obj fs) =
      (match objGet fs "keywords" with
       | some (.arr l) => l
       | _ => []) := rfl

lemma jsGet_obj (f : List (String × JsVal)) (k : String) :
    jsGet (.obj f) k = .ok (objGet f k) := rfl

lemma okBind {α β : Type} (a : α) (f : α → Except String β) :
    (Except.ok a >>= f) = f a := rfl

lemma bind_pure_map {α β : Type} (e : Except String α) (f : α → β) :
    (e >>= fun a => (pure (f a) : Except String β)) = Except.map f e := by
  cases e with
  | error er => rfl
  | ok a => rfl

lemma coerceParsed_obj_char (fs : List (String × JsVal)) :
    ∃ fs3,
      coerceParsed (.obj fs) =
        (mapExcept coerceKeyword (keywordsOf (.obj fs))).map
          (fun m => .obj (objSet fs3 "keywords" (.arr (m.take 5)))) ∧
      objGet fs3 "translation" = some (jsOrEmpty (objGet fs "translation")) ∧
      (∀ key, key ≠ "translation" → key ≠ "keywords" → objGet fs3 key = objGet fs key) := by
  obtain ⟨fs2, h1, hkw, htr, hoth⟩ := fixTranslation_obj fs
  have hfk : objGet fs "keywords" = objGet fs2 "keywords" := hkw.symm
  rw [coerceParsed_eq, h1]
  cases hk2 : objGet fs2 "keywords" with
  | some v =>
      cases v with
      | arr l =>
          refine ⟨fs2, ?_, htr, fun key ha hb => hoth key ha⟩
          rw [keywordsOf_obj, hfk, hk2]
          simp only [jsGet_obj, hk2, okBind]
          exact bind_pure_map _ _
      | null =>
          refine ⟨objSet fs2 "keywords" (.arr []), ?_, ?_, ?_⟩
          · rw [keywordsOf_obj, hfk, hk2]
            simp only [jsGet_obj, hk2, okBind]
            simp only [jsSet, jsGet_obj, objGet_objSet_self, okBind]
            exact bind_pure_map _ _
          · rw [objGet_objSet_ne fs2 "keywords" "translation" _ (by decide)]
            exact htr
          · intro key ha hb
            rw [objGet_objSet_ne fs2 "keywords" key _ (fun he => hb he.symm)]
            exact hoth key ha
      | bool b =>
          refine ⟨objSet fs2 "keywords" (.arr []), ?_, ?_, ?_⟩
          · rw [keywordsOf_obj, hfk, hk2]
            simp only [jsGet_obj, hk2, okBind]
            simp only [jsSet, jsGet_obj, objGet_objSet_self, okBind]
            exact bind_pure_map _ _
          · rw [objGet_objSet_ne fs2 "keywords" "translation" _ (by decide)]
            exact htr
          · intro key ha hb
            rw [objGet_objSet_ne fs2 "keywords" key _ (fun he => hb he.symm)]
            exact hoth key ha
      | num q =>
          refine ⟨objSet fs2 "keywords" (.arr []), ?_, ?_, ?_⟩
          · rw [keywordsOf_obj, hfk, hk2]
            simp only [jsGet_obj, hk2, okBind]
            simp only [jsSet, jsGet_obj, objGet_objSet_self, okBind]
            exact bind_pure_map _ _
          · rw [objGet_objSet_ne fs2 "keywords" "translation" _ (by decide)]
            exact htr
          · intro key ha hb
            rw [objGet_objSet_ne fs2 "keywords" key _ (fun he => hb he.symm)]
            exact hoth key ha
      | str st =>
          refine ⟨objSet fs2 "keywords" (.arr []), ?_, ?_, ?_⟩
          · rw [keywordsOf_obj, hfk, hk2]
            simp only [jsGet_obj, hk2, okBind]
            simp only [jsSet, jsGet_obj, objGet_objSet_self, okBind]
            exact bind_pure_map _ _
          · rw [objGet_objSet_ne fs2 "keywords" "translation" _ (by decide)]
            exact htr
          · intro key ha hb
            rw [objGet_objSet_ne fs2 "keywords" key _ (fun he => hb he.symm)]
            exact hoth key ha
      | obj f2 =>
          refine ⟨objSet fs2 "keywords" (.arr []), ?_, ?_, ?_⟩
          · rw [keywordsOf_obj, hfk, hk2]
            simp only [jsGet_obj, hk2, okBind]
            simp only [jsSet, jsGet_obj, objGet_objSet_self, okBind]
            exact bind_pure_map _ _
          · rw [objGet_objSet_ne fs2 "keywords" "translation" _ (by decide)]
            exact htr
          · intro key ha hb
            rw [objGet_objSet_ne fs2 "keywords" key _ (fun he => hb he.symm)]
            exact hoth key ha
  | none =>
      refine ⟨objSet fs2 "keywords" (.arr []), ?_, ?_, ?_⟩
      · rw [keywordsOf_obj, hfk, hk2]
        simp only [jsGet_obj, hk2, okBind]
        simp only [jsSet, jsGet_obj, objGet_objSet_self, okBind]
        exact bind_pure_map _ _
      · rw [objGet_objSet_ne fs2 "keywords" "translation" _ (by decide)]
        exact htr
      · intro key ha hb
        rw [objGet_objSet_ne fs2 "keywords" key _ (fun he => hb he.symm)]
        exact hoth key ha

lemma dropWhile_head {α : Type} (p : α → Bool) (cs : List α) (c : α) (rest : List α)
    (h : cs.dropWhile p = c :: rest) : p c = false := by
  induction cs with
  | nil => simp [List.dropWhile] at h
  | cons a l ih =>
      rw [List.dropWhile_cons] at h
      by_cases hp : p a = true
      · rw [if_pos hp] at h
        exact ih h
      · rw [if_neg hp] at h
        injection h with h1 h2
        subst h1
        simpa using hp

lemma revDropWhile_decomp {α : Type} (q : α → Bool) (t : List α) :
    ∃ z, t = (t.reverse.dropWhile q).reverse ++ z := by
  refine ⟨(t.reverse.takeWhile q).reverse, ?_⟩
  calc t = t.reverse.reverse := (List.reverse_reverse t).symm
  _ = (List.takeWhile q t.reverse ++ List.dropWhile q t.reverse).reverse := by
      rw [List.takeWhile_append_dropWhile]
  _ = (List.dropWhile q t.reverse).reverse ++ (List.takeWhile q t.reverse).reverse := by
      rw [List.reverse_append]

lemma braceSpan_some (cs u : List Char) (h : braceSpan cs = some u) :
    ∃ t2, u = '{' :: t2 := by
  cases hd : cs.dropWhile (fun c => !(c == '{')) with
  | nil =>
      rw [braceSpan, hd] at h
      exact Option.noConfusion h
  | cons a as =>
      have ha : (fun c => !(c == '{')) a = false := dropWhile_head _ cs a as hd
      have ha2 : a = '{' := by simpa using ha
      rw [braceSpan, hd] at h
      have h2 : (match ((a :: as).reverse.dropWhile (fun c => !(c == '}'))).reverse with
          | [] => (none : Option (List Char))
          | u2 => some u2) = some u := h
      cases hi : ((a :: as).reverse.dropWhile (fun c => !(c == '}'))).reverse with
      | nil =>
          rw [hi] at h2
          exact Option.noConfusion h2
      | cons b bs =>
          rw [hi] at h2
          have hu : b :: bs = u := Option.some.inj h2
          obtain ⟨z, hz⟩ := revDropWhile_decomp (fun c => !(c == '}')) (a :: as)
          rw [hi] at hz
          have hb : a = b := by
            rw [List.cons_append] at hz
            exact (List.cons.inj hz).1
          exact ⟨bs, by rw [← hu, ← hb, ha2]⟩

lemma parseValue_brace (fuel : Nat) (rest : List Char) (v : JsVal) (rem : List Char)
    (h : parseValue (fuel + 1) ('{' :: rest) = some (v, rem)) : ∃ fs, v = .obj fs := by
  rw [show parseValue (fuel + 1) ('{' :: rest) = (match skipJsonWs rest with
      | '}' :: r2 => some (.obj [], r2)
      | cs2 => (parseFields fuel [] cs2).map (fun p => (.obj p.1, p.2))) from rfl] at h
  split at h
  · have h2 : (JsVal.obj [], _) = (v, rem) := Option.some.inj h
    exact ⟨[], ((Prod.mk.inj h2).1).symm⟩
  · cases hpf : parseFields fuel [] _ with
    | none =>
        rw [hpf] at h
        exact Option.noConfusion h
    | some pr =>
        rw [hpf] at h
        have h2 : (JsVal.obj pr.1, pr.2) = (v, rem) := Option.some.inj h
        exact ⟨pr.1, ((Prod.mk.inj h2).1).symm⟩

lemma jsonParse_brace_obj (rest : List Char) (v : JsVal)
    (h : jsonParse ('{' :: rest) = some v) : ∃ fs, v = .obj fs := by
  have hskip : skipJsonWs ('{' :: rest) = '{' :: rest := rfl
  rw [jsonParse, hskip] at h
  cases hpv : parseValue (('{' :: rest).length + 1) ('{' :: rest) with
  | none =>
      rw [hpv] at h
      exact Option.noConfusion h
  | some p =>
      obtain ⟨v2, rem⟩ := p
      rw [hpv] at h
      have h3 : (if (skipJsonWs rem).isEmpty = true then some v2 else none) = some v := h
      by_cases he : (skipJsonWs rem).isEmpty = true
      · rw [if_pos he] at h3
        have h2 : v2 = v := Option.some.inj h3
        obtain ⟨fs, hfs⟩ := parseValue_brace _ rest v2 rem hpv
        exact ⟨fs, by rw [← h2, hfs]⟩
      · rw [if_neg he] at h3
        exact Option.noConfusion h3

lemma parseAIResponse_eqn (s : String) :
    parseAIResponse s = (match extractCandidate s with
      | none => .error (.parseError "Could not parse AI response as JSON")
      | some cand => parseCandidate cand) := rfl

lemma isCanonicalEntry_spec (k : JsVal) : isCanonicalEntry (specRepairEntry k) = true := rfl

lemma parse_ok_core (s : String) (cand : List Char) (fs : List (String × JsVal)) (r : JsVal)
    (hc : extractCandidate s = some cand)
    (hp : jsonParse cand = some (.obj fs))
    (hr : parseAIResponse s = .ok r) :
    ∃ m fs3, mapExcept coerceKeyword (keywordsOf (.obj fs)) = .ok m ∧
      r = .obj (objSet fs3 "keywords" (.arr (m.take 5))) ∧
      objGet fs3 "translation" = some (jsOrEmpty (objGet fs "translation")) ∧
      (∀ key, key ≠ "translation" → key ≠ "keywords" → objGet fs3 key = objGet fs key) := by
  rw [parseAIResponse_eqn, hc] at hr
  have hr2 : parseCandidate cand = .ok r := hr
  rw [parseCandidate, hp] at hr2
  have hr3 : (match coerceParsed (.obj fs) with
      | .error m =>
          (.error (.parseError ("Failed to parse AI response: " ++ m)) : Except CoreError JsVal)
      | .ok r2 => .ok r2) = .ok r := hr2
  obtain ⟨fs3, hchar, htr, hoth⟩ := coerceParsed_obj_char fs
  rw [hchar] at hr3
  cases hm : mapExcept coerceKeyword (keywordsOf (.obj fs)) with
  | error e =>
      rw [hm] at hr3
      have hr4 : (Except.error (CoreError.parseError
          ("Failed to parse AI response: " ++ e)) : Except CoreError JsVal) = .ok r := hr3
      exact Except.noConfusion hr4
  | ok m =>
      rw [hm] at hr3
      have hr4 : Except.ok (ε := CoreError)
          (JsVal.obj (objSet fs3 "keywords" (.arr (m.take 5)))) = .ok r := hr3
      exact ⟨m, fs3, rfl, (Except.ok.inj hr4).symm, htr, hoth⟩

lemma parse_ok_forward (s : String) (cand : List Char) (fs : List (String × JsVal))
    (hc : extractCandidate s = some cand)
    (hp : jsonParse cand = some (.obj fs))
    (hnull : hasNullElem (keywordsOf (.obj fs)) = false) :
    ∃ r, parseAIResponse s = .ok r := by
  obtain ⟨fs3, hchar, htr, hoth⟩ := coerceParsed_obj_char fs
  refine ⟨.obj (objSet fs3 "keywords"
    (.arr (((keywordsOf (.obj fs)).map specRepairEntry).take 5))), ?_⟩
  rw [parseAIResponse_eqn, hc]
  show parseCandidate cand = _
  rw [parseCandidate, hp]
  show (match coerceParsed (.obj fs) with
    | .error m =>
        (.error (.parseError ("Failed to parse AI response: " ++ m)) : Except CoreError JsVal)
    | .ok r2 => .ok r2) = _
  rw [hchar, mapExcept_coerce_ok _ hnull]
  rfl

/-- Amended C1: once the brace-delimited candidate parses (step 4), the
coercion step succeeds and an AnalysisResult is returned provided the parsed
keywords array contains no null element; a null element anywhere in the
array (even beyond index 4) makes the repair map throw, which the catch
rethrows as a ParseError, so ParseError is not reserved to the two
extraction failures. -/
theorem c1_amended (s : String) (cand : List Char) (v : JsVal)
    (hc : extractCandidate s = some cand)
    (hp : jsonParse cand = some v)
    (hnull : hasNullElem (keywordsOf v) = false) :
    ∃ r, parseAIResponse s = .ok r := by
  have hc2 : braceSpan (stripFences (jsTrim s.data)) = some cand := hc
  obtain ⟨t2, ht⟩ := braceSpan_some _ _ hc2
  subst ht
  obtain ⟨fs, hfs⟩ := jsonParse_brace_obj _ _ hp
  subst hfs
  exact parse_ok_forward s _ fs hc hp hnull

theorem c1_amended_witness :
    ∃ r, parseAIResponse "\x7b\"keywords\":[1,\"x\",\x7b\x7d]\x7d" = .ok r :=
  c1_amended "\x7b\"keywords\":[1,\"x\",\x7b\x7d]\x7d"
    "\x7b\"keywords\":[1,\"x\",\x7b\x7d]\x7d".data
    (.obj [("keywords", .arr [.num 1, .str "x", .obj []])]) rfl rfl rfl

/-- Amended C2: the normalized result always carries a translation property;
it is the empty string exactly when the parsed translation is falsy (absent,
null, empty string, zero or false), and otherwise it is the parsed value
preserved unchanged, which keeps its type, so a truthy non-string
translation (such as a number) stays a non-string in the result. -/
theorem c2_amended (s : String) (cand : List Char) (fs : List (String × JsVal)) (r : JsVal)
    (hc : extractCandidate s = some cand)
    (hp : jsonParse cand = some (.obj fs))
    (hr : parseAIResponse s = .ok r) :
    jsGetND r "translation" = some (jsOrEmpty (objGet fs "translation")) := by
  obtain ⟨m, fs3, hm, hrr, htr, hoth⟩ := parse_ok_core s cand fs r hc hp hr
  subst hrr
  show objGet (objSet fs3 "keywords" (.arr (m.take 5))) "translation" = _
  rw [objGet_objSet_ne fs3 "keywords" "translation" _ (by decide)]
  exact htr

theorem c2_amended_witness :
    jsGetND (.obj [("translation", .str ""), ("keywords", .arr [])]) "translation" =
      some (jsOrEmpty (objGet [("translation", JsVal.num 0), ("keywords", JsVal.arr [])]
        "translation")) :=
  c2_amended "\x7b\"translation\":0,\"keywords\":[]\x7d"
    "\x7b\"translation\":0,\"keywords\":[]\x7d".data
    [("translation", JsVal.num 0), ("keywords", JsVal.arr [])]
    (.obj [("translation", .str ""), ("keywords", .arr [])]) rfl rfl rfl

/-- C5: on every successfully normalized input the result carries a keywords
array that is the first five repaired entries of the parsed keywords, in
original order, with at most five elements, and every entry is an object
holding exactly the five contract fields, each defaulted independently to
the empty string when falsy. -/
theorem c5_keywords_contract (s : String) (cand : List Char) (v : JsVal) (r : JsVal)
    (hc : extractCandidate s = some cand)
    (hp : jsonParse cand = some v)
    (hr : parseAIResponse s = .ok r) :
    ∃ ks, resultKeywords r = some ks ∧
      ks = ((keywordsOf v).map specRepairEntry).take 5 ∧
      ks.length ≤ 5 ∧
      (∀ e ∈ ks, isCanonicalEntry e = true) := by
  have hc2 : braceSpan (stripFences (jsTrim s.data)) = some cand := hc
  obtain ⟨t2, ht⟩ := braceSpan_some _ _ hc2
  subst ht
  obtain ⟨fs, hfs⟩ := jsonParse_brace_obj _ _ hp
  subst hfs
  obtain ⟨m, fs3, hm, hrr, htr, hoth⟩ := parse_ok_core s _ fs r hc hp hr
  subst hrr
  obtain ⟨hnull, hmap⟩ := mapExcept_coerce_inv _ _ hm
  subst hmap
  refine ⟨((keywordsOf (.obj fs)).map specRepairEntry).take 5, ?_, rfl, ?_, ?_⟩
  · show (match jsGetND (JsVal.obj (objSet fs3 "keywords"
        (.arr (((keywordsOf (.obj fs)).map specRepairEntry).take 5)))) "keywords" with
      | some (.arr l) => some l
      | _ => none) = _
    rw [show jsGetND (JsVal.obj (objSet fs3 "keywords"
        (.arr (((keywordsOf (.obj fs)).map specRepairEntry).take 5)))) "keywords" =
      objGet (objSet fs3 "keywords"
        (.arr (((keywordsOf (.obj fs)).map specRepairEntry).take 5))) "keywords" from rfl]
    rw [objGet_objSet_self]
  · rw [List.length_take]
    exact Nat.min_le_left _ _
  · intro e he
    have he2 : e ∈ (keywordsOf (.obj fs)).map specRepairEntry := List.take_subset _ _ he
    obtain ⟨k, hk, hke⟩ := List.mem_map.mp he2
    rw [← hke]
    exact isCanonicalEntry_spec k

theorem c5_witness :
    ∃ ks, resultKeywords (.obj [("translation", .str "t"), ("keywords", .arr
      [.obj [("word", .str "a"), ("phonetic", .str ""), ("roots", .str ""),
             ("origin", .str ""), ("meaning", .str "")],
       .obj [("word", .str ""), ("phonetic", .str ""), ("roots", .str ""),
             ("origin", .str ""), ("meaning", .str "")],
       .obj [("word", .str ""), ("phonetic", .str ""), ("roots", .str ""),
             ("origin", .str ""), ("meaning", .str "")],
       .obj [("word", .str ""), ("phonetic", .str ""), ("roots", .str ""),
             ("origin", .str ""), ("meaning", .str "")],
       .obj [("word", .str ""), ("phonetic", .str ""), ("roots", .str ""),
             ("origin", .str ""), ("meaning", .str "")]])]) = some ks ∧
      ks = ((keywordsOf (.obj [("translation", JsVal.str "t"), ("keywords", JsVal.arr
        [.obj [("word", .str "a")], .obj [], .obj [], .obj [], .obj [],
         .obj [], .obj []])])).map specRepairEntry).take 5 ∧
      ks.length ≤ 5 ∧
      (∀ e ∈ ks, isCanonicalEntry e = true) :=
  c5_keywords_contract
    "\x7b\"translation\":\"t\",\"keywords\":[\x7b\"word\":\"a\"\x7d,\x7b\x7d,\x7b\x7d,\x7b\x7d,\x7b\x7d,\x7b\x7d,\x7b\x7d]\x7d"
    "\x7b\"translation\":\"t\",\"keywords\":[\x7b\"word\":\"a\"\x7d,\x7b\x7d,\x7b\x7d,\x7b\x7d,\x7b\x7d,\x7b\x7d,\x7b\x7d]\x7d".data
    (.obj [("translation", JsVal.str "t"), ("keywords", JsVal.arr
      [.obj [("word", .str "a")], .obj [], .obj [], .obj [], .obj [],
       .obj [], .obj []])])
    (.obj [("translation", .str "t"), ("keywords", .arr
      [.obj [("word", .str "a"), ("phonetic", .str ""), ("roots", .str ""),
             ("origin", .str ""), ("meaning", .str "")],
       .obj [("word", .str ""), ("phonetic", .str ""), ("roots", .str ""),
             ("origin", .str ""), ("meaning", .str "")],
       .obj [("word", .str ""), ("phonetic", .str ""), ("roots", .str ""),
             ("origin", .str ""), ("meaning", .str "")],
       .obj [("word", .str ""), ("phonetic", .str ""), ("roots", .str ""),
             ("origin", .str ""), ("meaning", .str "")],
       .obj [("word", .str ""), ("phonetic", .str ""), ("roots", .str ""),
             ("origin", .str ""), ("meaning", .str "")]])])
    rfl rfl rfl

/-- C10: the normalizer returns the mutated parsed object itself, so every
top-level property other than translation and keywords is preserved
unchanged in the result, while each keyword entry is rebuilt as a fresh
object holding exactly the five contract fields, dropping any other
property the entry carried. -/
theorem c10_frame (s : String) (cand : List Char) (fs : List (String × JsVal)) (r : JsVal)
    (hc : extractCandidate s = some cand)
    (hp : jsonParse cand = some (.obj fs))
    (hr : parseAIResponse s = .ok r) :
    (∀ key, key ≠ "translation" → key ≠ "keywords" → jsGetND r key = objGet fs key) ∧
    (∀ ks, resultKeywords r = some ks → ∀ e ∈ ks, isCanonicalEntry e = true) := by
  obtain ⟨m, fs3, hm, hrr, htr, hoth⟩ := parse_ok_core s cand fs r hc hp hr
  obtain ⟨hnull, hmap⟩ := mapExcept_coerce_inv _ _ hm
  subst hrr
  subst hmap
  constructor
  · intro key h1 h2
    show objGet (objSet fs3 "keywords" _) key = _
    rw [objGet_objSet_ne fs3 "keywords" key _ (fun he => h2 he.symm)]
    exact hoth key h1 h2
  · intro ks hks e he
    have hks2 : (match objGet (objSet fs3 "keywords"
        (.arr (((keywordsOf (.obj fs)).map specRepairEntry).take 5))) "keywords" with
      | some (.arr l) => some l
      | _ => none) = some ks := hks
    rw [objGet_objSet_self] at hks2
    have hks3 : ((keywordsOf (.obj fs)).map specRepairEntry).take 5 = ks :=
      Option.some.inj hks2
    rw [← hks3] at he
    have he2 : e ∈ (keywordsOf (.obj fs)).map specRepairEntry := List.take_subset _ _ he
    obtain ⟨k, hk, hke⟩ := List.mem_map.mp he2
    rw [← hke]
    exact isCanonicalEntry_spec k

theorem c10_witness :
    jsGetND (.obj [("extra", .num 7), ("translation", .str "t"), ("keywords", .arr
      [.obj [("word", .str "w"), ("phonetic", .str ""), ("roots", .str ""),
             ("origin", .str ""), ("meaning", .str "")]])]) "extra" =
      objGet [("extra", JsVal.num 7), ("translation", JsVal.str "t"),
        ("keywords", JsVal.arr [.obj [("word", .str "w"), ("x", .num 1)]])] "extra" :=
  (c10_frame
    "\x7b\"extra\":7,\"translation\":\"t\",\"keywords\":[\x7b\"word\":\"w\",\"x\":1\x7d]\x7d"
    "\x7b\"extra\":7,\"translation\":\"t\",\"keywords\":[\x7b\"word\":\"w\",\"x\":1\x7d]\x7d".data
    [("extra", JsVal.num 7), ("translation", JsVal.str "t"),
      ("keywords", JsVal.arr [.obj [("word", .str "w"), ("x", .num 1)]])]
    (.obj [("extra", .num 7), ("translation", .str "t"), ("keywords", .arr
      [.obj [("word", .str "w"), ("phonetic", .str ""), ("roots", .str ""),
             ("origin", .str ""), ("meaning", .str "")]])])
    rfl rfl rfl).1 "extra" (by decide) (by decide)

lemma errMsgVal_obj (fs : List (String × JsVal)) (fb : String) :
    errMsgVal (.obj fs) fb = .ok (specAdapterErrMsg (.obj fs) fb) := by
  have h1 : errMsgVal (.obj fs) fb = .ok (match optChain (objGet fs "error")
      (fun v => jsGetND v "message") with
    | some v => if v.truthy then jsToString v else fb
    | none => fb) := rfl
  have h2 : specAdapterErrMsg (.obj fs) fb = (match objGet fs "error" with
    | some ev =>
        (match jsGetND ev "message" with
         | some mv => if mv.truthy then jsToString mv else fb
         | none => fb)
    | none => fb) := rfl
  rw [h1, h2]
  cases he : objGet fs "error" with
  | none => rfl
  | some v => cases v <;> rfl

/-- Amended C4: on a non-success response whose error body parses as a JSON
object, every adapter raises a ProviderCallError carrying the message from
the error body when present and truthy, else its generic fallback (the
OpenRouter fallback is derived from the HTTP status).  When the error body
is unparsable, only OpenRouter catches the body-read rejection and falls
back to the status-derived ProviderCallError; Gemini and DeepSeek instead
fail with the propagated JSON syntax error of the bare response.json()
call. -/
theorem c4_amended (resp : HttpResponse) (hok : resp.ok = false) :
    (∀ fs, jsonParse resp.body.data = some (.obj fs) →
       callGeminiOnResponse resp =
         .error (.providerCallError (specAdapterErrMsg (.obj fs) "Gemini API request failed")) ∧
       callDeepSeekOnResponse resp =
         .error (.providerCallError (specAdapterErrMsg (.obj fs) "DeepSeek API request failed")) ∧
       callOpenRouterOnResponse resp =
         .error (.providerCallError (specAdapterErrMsg (.obj fs)
           ("OpenRouter error " ++ toString resp.status)))) ∧
    (jsonParse resp.body.data = none →
       callGeminiOnResponse resp = .error (.jsonSyntaxError resp.body) ∧
       callDeepSeekOnResponse resp = .error (.jsonSyntaxError resp.body) ∧
       callOpenRouterOnResponse resp =
         .error (.providerCallError ("OpenRouter error " ++ toString resp.status))) := by
  constructor
  · intro fs hp
    refine ⟨?_, ?_, ?_⟩
    · simp [callGeminiOnResponse, hok, hp, errMsgVal_obj]
    · simp [callDeepSeekOnResponse, hok, hp, errMsgVal_obj]
    · simp [callOpenRouterOnResponse, hok, hp, errMsgVal_obj]
  · intro hp
    refine ⟨?_, ?_, ?_⟩
    · simp [callGeminiOnResponse, hok, hp]
    · simp [callDeepSeekOnResponse, hok, hp]
    · simp [callOpenRouterOnResponse, hok, hp, errMsgVal_obj, specAdapterErrMsg,
        jsGetND, objGet]

theorem c4_amended_witness :
    callGeminiOnResponse ⟨false, 401, "\x7b\"error\":\x7b\"message\":\"bad key\"\x7d\x7d"⟩ =
      .error (.providerCallError "bad key") :=
  ((c4_amended ⟨false, 401, "\x7b\"error\":\x7b\"message\":\"bad key\"\x7d\x7d"⟩ rfl).1
    [("error", .obj [("message", .str "bad key")])] rfl).1

/-- C8: when a success response parses but the provider-specific text path
yields nothing (Gemini candidates[0].content.parts[0].text, DeepSeek and
OpenRouter choices[0].message.content), the adapter raises a
ProviderCallError with exactly the message No response from that
provider. -/
theorem c8_no_text (resp : HttpResponse) (hok : resp.ok = true) (data : JsVal)
    (hp : jsonParse resp.body.data = some data) :
    (geminiText data = .ok none →
       callGeminiOnResponse resp = .error (.providerCallError "No response from Gemini")) ∧
    (chatText data = .ok none →
       callDeepSeekOnResponse resp = .error (.providerCallError "No response from DeepSeek") ∧
       callOpenRouterOnResponse resp =
         .error (.providerCallError "No response from OpenRouter")) := by
  constructor
  · intro hg
    simp [callGeminiOnResponse, hok, hp, hg, returnParsed]
  · intro hg
    constructor
    · simp [callDeepSeekOnResponse, hok, hp, hg, returnParsed]
    · simp [callOpenRouterOnResponse, hok, hp, hg, returnParsed]

theorem c8_witness :
    callGeminiOnResponse ⟨true, 200, "\x7b\"candidates\":[],\"choices\":[]\x7d"⟩ =
      .error (.providerCallError "No response from Gemini") ∧
    callDeepSeekOnResponse ⟨true, 200, "\x7b\"candidates\":[],\"choices\":[]\x7d"⟩ =
      .error (.providerCallError "No response from DeepSeek") :=
  ⟨(c8_no_text ⟨true, 200, "\x7b\"candidates\":[],\"choices\":[]\x7d"⟩ rfl
      (.obj [("candidates", .arr []), ("choices", .arr [])]) rfl).1 rfl,
   ((c8_no_text ⟨true, 200, "\x7b\"candidates\":[],\"choices\":[]\x7d"⟩ rfl
      (.obj [("candidates", .arr []), ("choices", .arr [])]) rfl).2 rfl).1⟩

lemma dropWhile_append_pos {α : Type} (q : α → Bool) (p m : List α)
    (hp : ∀ c ∈ p, q c = true) : (p ++ m).dropWhile q = m.dropWhile q := by
  induction p with
  | nil => rfl
  | cons a l ih =>
      rw [List.cons_append, List.dropWhile_cons, if_pos (hp a (List.mem_cons_self a l))]
      exact ih (fun c hc => hp c (List.mem_cons_of_mem a hc))

lemma dropWhile_decomp {α : Type} (q : α → Bool) (cs : List α) :
    ∃ w, cs = w ++ cs.dropWhile q ∧ ∀ c ∈ w, q c = true :=
  ⟨cs.takeWhile q, (List.takeWhile_append_dropWhile q cs).symm,
    fun c hc => List.mem_takeWhile_imp hc⟩

lemma dropWhile_cons_of_neg {α : Type} (q : α → Bool) (c : α) (cs : List α)
    (h : q c = false) : (c :: cs).dropWhile q = c :: cs := by
  rw [List.dropWhile_cons, if_neg (by simp [h])]

lemma braceSpan_pad (p m q : List Char)
    (hp : ∀ c ∈ p, c ≠ '{' ∧ c ≠ '}') (hq : ∀ c ∈ q, c ≠ '{' ∧ c ≠ '}') :
    braceSpan (p ++ m ++ q) = braceSpan m := by
  have hp1 : ∀ c ∈ p, (fun c => !(c == '{')) c = true := by
    intro c hc
    simpa using (hp c hc).1
  have hq1 : ∀ c ∈ q, (fun c => !(c == '{')) c = true := by
    intro c hc
    simpa using (hq c hc).1
  have hq2 : ∀ c ∈ q.reverse, (fun c => !(c == '}')) c = true := by
    intro c hc
    simpa using (hq c (List.mem_reverse.mp hc)).2
  rw [List.append_assoc]
  cases hm : m.dropWhile (fun c => !(c == '{')) with
  | nil =>
      have e1 : (p ++ (m ++ q)).dropWhile (fun c => !(c == '{')) = [] := by
        rw [dropWhile_append_pos _ p _ hp1,
          dropWhile_append_pos _ m _ (List.dropWhile_eq_nil_iff.mp hm),
          List.dropWhile_eq_nil_iff]
        exact hq1
      rw [braceSpan, braceSpan, e1, hm]
  | cons a as =>
      have e1 : (p ++ (m ++ q)).dropWhile (fun c => !(c == '{')) = a :: (as ++ q) := by
        rw [dropWhile_append_pos _ p _ hp1, List.dropWhile_append, hm]
        simp
      have e2 : ((a :: (as ++ q)).reverse.dropWhile (fun c => !(c == '}'))) =
          ((a :: as).reverse.dropWhile (fun c => !(c == '}'))) := by
        rw [show (a :: (as ++ q)) = (a :: as) ++ q from rfl, List.reverse_append,
          dropWhile_append_pos _ q.reverse _ hq2]
      rw [braceSpan, braceSpan, e1, hm]
      show (match ((a :: (as ++ q)).reverse.dropWhile (fun c => !(c == '}'))).reverse with
        | [] => (none : Option (List Char))
        | u => some u) =
        (match ((a :: as).reverse.dropWhile (fun c => !(c == '}'))).reverse with
        | [] => (none : Option (List Char))
        | u => some u)
      rw [e2]

lemma dropPrefixCI_decomp (pat cs rest : List Char) (h : dropPrefixCI pat cs = some rest) :
    ∃ p, cs = p ++ rest ∧ ∀ c ∈ p, ∃ a ∈ pat, a.toLower = c.toLower := by
  induction pat generalizing cs with
  | nil =>
      have h2 : cs = rest := Option.some.inj h
      exact ⟨[], by rw [h2]; rfl, by simp⟩
  | cons a ps ih =>
      cases cs with
      | nil => exact Option.noConfusion h
      | cons c cs2 =>
          rw [show dropPrefixCI (a :: ps) (c :: cs2) =
            (if a.toLower == c.toLower then dropPrefixCI ps cs2 else none) from rfl] at h
          by_cases ht : (a.toLower == c.toLower) = true
          · rw [if_pos ht] at h
            obtain ⟨p, hp1, hp2⟩ := ih cs2 h
            refine ⟨c :: p, by rw [List.cons_append, hp1], ?_⟩
            intro c2 hc2
            rcases List.mem_cons.mp hc2 with he | hm
            · exact ⟨a, List.mem_cons_self a ps, by rw [he]; exact eq_of_beq ht⟩
            · obtain ⟨a2, ha2, he2⟩ := hp2 c2 hm
              exact ⟨a2, List.mem_cons_of_mem a ha2, he2⟩
          · rw [if_neg ht] at h
            exact Option.noConfusion h

lemma fence_chars_not_brace (pat : List Char)
    (hpat : ∀ a ∈ pat, a.toLower ≠ '{' ∧ a.toLower ≠ '}')
    (c : Char) (h : ∃ a ∈ pat, a.toLower = c.toLower) : c ≠ '{' ∧ c ≠ '}' := by
  obtain ⟨a, ha, he⟩ := h
  constructor
  · intro hc
    subst hc
    exact (hpat a ha).1 (by rw [he]; decide)
  · intro hc
    subst hc
    exact (hpat a ha).2 (by rw [he]; decide)

lemma ws_not_brace (c : Char) (h : isJsWs c = true) : c ≠ '{' ∧ c ≠ '}' := by
  constructor
  · intro hc
    subst hc
    exact absurd h (by decide)
  · intro hc
    subst hc
    exact absurd h (by decide)

lemma stripLead_decomp (pat : List Char)
    (hpat : ∀ a ∈ pat, a.toLower ≠ '{' ∧ a.toLower ≠ '}') (cs : List Char) :
    ∃ p, cs = p ++ (match dropPrefixCI pat cs with
        | some rest => rest.dropWhile isJsWs
        | none => cs) ∧
      ∀ c ∈ p, c ≠ '{' ∧ c ≠ '}' := by
  cases hd : dropPrefixCI pat cs with
  | none => exact ⟨[], rfl, by simp⟩
  | some rest =>
      obtain ⟨p1, hp1, hp2⟩ := dropPrefixCI_decomp pat cs rest hd
      obtain ⟨w, hw1, hw2⟩ := dropWhile_decomp isJsWs rest
      refine ⟨p1 ++ w, ?_, ?_⟩
      · rw [List.append_assoc, ← hw1]
        exact hp1
      · intro c hc
        rcases List.mem_append.mp hc with hm | hm
        · exact fence_chars_not_brace pat hpat c (hp2 c hm)
        · exact ws_not_brace c (hw2 c hm)

lemma stripTrail_decomp (cs : List Char) :
    ∃ q, cs = stripTrail cs ++ q ∧ ∀ c ∈ q, c ≠ '{' ∧ c ≠ '}' := by
  rw [stripTrail]
  cases hd : dropPrefixCI fenceBare cs.reverse with
  | none => exact ⟨[], by rw [List.append_nil], by simp⟩
  | some rest =>
      obtain ⟨p1, hp1, hp2⟩ := dropPrefixCI_decomp fenceBare cs.reverse rest hd
      obtain ⟨w, hw1, hw2⟩ := dropWhile_decomp isJsWs rest
      refine ⟨w.reverse ++ p1.reverse, ?_, ?_⟩
      · have e1 : cs.reverse = p1 ++ (w ++ rest.dropWhile isJsWs) := by
          rw [← hw1]; exact hp1
        have e2 : cs = (cs.reverse).reverse := (List.reverse_reverse cs).symm
        rw [e2, e1]
        rw [List.reverse_append, List.reverse_append]
        rw [List.append_assoc]
      · intro c hc
        rcases List.mem_append.mp hc with hm | hm
        · exact ws_not_brace c (hw2 c (List.mem_reverse.mp hm))
        · exact fence_chars_not_brace fenceBare (by decide) c (hp2 c (List.mem_reverse.mp hm))

lemma braceSpan_of_decomp (t s2 : List Char)
    (h : ∃ p q, t = p ++ s2 ++ q ∧ (∀ c ∈ p, c ≠ '{' ∧ c ≠ '}') ∧
      (∀ c ∈ q, c ≠ '{' ∧ c ≠ '}')) :
    braceSpan s2 = braceSpan t := by
  obtain ⟨p, q, h1, h2, h3⟩ := h
  rw [h1, braceSpan_pad p s2 q h2 h3]

lemma stripFences_braceSpan (t : List Char) :
    braceSpan (stripFences t) = braceSpan t := by
  obtain ⟨p1, e1, n1⟩ := stripLead_decomp fenceJson (by decide) t
  obtain ⟨p2, e2, n2⟩ := stripLead_decomp fenceBare (by decide) (stripLeadJson t)
  obtain ⟨q3, e3, n3⟩ := stripTrail_decomp (stripLeadBare (stripLeadJson t))
  have e1b : t = p1 ++ stripLeadJson t := e1
  have e2b : stripLeadJson t = p2 ++ stripLeadBare (stripLeadJson t) := e2
  apply braceSpan_of_decomp
  refine ⟨p1 ++ p2, q3, ?_, ?_, n3⟩
  · rw [stripFences]
    calc t = p1 ++ stripLeadJson t := e1b
    _ = p1 ++ (p2 ++ stripLeadBare (stripLeadJson t)) := by rw [← e2b]
    _ = p1 ++ (p2 ++ (stripTrail (stripLeadBare (stripLeadJson t)) ++ q3)) := by rw [← e3]
    _ = p1 ++ p2 ++ stripTrail (stripLeadBare (stripLeadJson t)) ++ q3 := by
        rw [List.append_assoc, List.append_assoc]
  · intro c hc
    rcases List.mem_append.mp hc with hm | hm
    · exact n1 c hm
    · exact n2 c hm

lemma specStripFences_braceSpan (t : List Char) :
    braceSpan (specStripFences t) = braceSpan t := by
  have hlead : ∃ p, t = p ++ (match dropPrefixCI fenceJson t with
      | some rest => rest.dropWhile isJsWs
      | none =>
          match dropPrefixCI fenceBare t with
          | some rest => rest.dropWhile isJsWs
          | none => t) ∧ ∀ c ∈ p, c ≠ '{' ∧ c ≠ '}' := by
    cases hd : dropPrefixCI fenceJson t with
    | some rest =>
        obtain ⟨p1, hp1, hp2⟩ := dropPrefixCI_decomp fenceJson t rest hd
        obtain ⟨w, hw1, hw2⟩ := dropWhile_decomp isJsWs rest
        refine ⟨p1 ++ w, ?_, ?_⟩
        · rw [List.append_assoc, ← hw1]
          exact hp1
        · intro c hc
          rcases List.mem_append.mp hc with hm | hm
          · exact fence_chars_not_brace fenceJson (by decide) c (hp2 c hm)
          · exact ws_not_brace c (hw2 c hm)
    | none =>
        obtain ⟨p, hp, hn⟩ := stripLead_decomp fenceBare (by decide) t
        exact ⟨p, hp, hn⟩
  obtain ⟨p, e1, n1⟩ := hlead
  obtain ⟨q, e2, n2⟩ := stripTrail_decomp (match dropPrefixCI fenceJson t with
    | some rest => rest.dropWhile isJsWs
    | none =>
        match dropPrefixCI fenceBare t with
        | some rest => rest.dropWhile isJsWs
        | none => t)
  apply braceSpan_of_decomp
  refine ⟨p, q, ?_, n1, n2⟩
  rw [specStripFences]
  calc t = p ++ _ := e1
  _ = p ++ (stripTrail _ ++ q) := by rw [← e2]
  _ = _ := by rw [List.append_assoc]

/-- C7: the normalizer is extensionally the pipeline the spec words describe:
trim, strip one leading fence marker (```json case-insensitively or bare ```)
and one trailing ``` marker, take the first opening brace through the last
closing brace as the candidate (failing with exactly
ParseError(Could not parse AI response as JSON) when no such span exists),
then parse and coerce.  The code applies its two leading replaces in
sequence, but the possible second strip removes only backticks and
whitespace, which cannot move the first opening or last closing brace, so
the extracted candidate and all observable behaviour agree. -/
theorem c7_normalizer_order (s : String) : parseAIResponse s = specNormalize s := by
  rw [parseAIResponse_eqn, specNormalize]
  have e : extractCandidate s = braceSpan (specStripFences (jsTrim s.data)) := by
    rw [extractCandidate, stripFences_braceSpan, specStripFences_braceSpan]
  rw [e]

lemma hexVal_hexDigitLower (n : Nat) (h : n < 16) : hexVal (hexDigitLower n) = some n := by
  have h2 : ∀ m, m < 16 → hexVal (hexDigitLower m) = some m := by decide
  exact h2 n h

lemma char_eq_of_toNat (c : Char) (n : Nat) (h : c.toNat = n) : c = Char.ofNat n := by
  rw [← h, Char.ofNat_toNat]

lemma hex4_00 (x y : Char) (a b : Nat) (hx : hexVal x = some a) (hy : hexVal y = some b) :
    hex4 '0' '0' x y = some (a * 16 + b) := by
  simp only [hex4]
  rw [show hexVal '0' = some 0 from rfl, hx, hy]
  show some (((0 * 16 + 0) * 16 + a) * 16 + b) = some (a * 16 + b)
  exact congrArg some (by omega)

lemma parseStringBody_u (x y : Char) (n : Nat) (tail : List Char)
    (h : hex4 '0' '0' x y = some n) :
    parseStringBody ('\\' :: 'u' :: '0' :: '0' :: x :: y :: tail) =
      (parseStringBody tail).map (fun p => (Char.ofNat n :: p.1, p.2)) := by
  show (match hex4 '0' '0' x y with
    | some n2 => (parseStringBody tail).map
        (fun p : List Char × List Char => (Char.ofNat n2 :: p.1, p.2))
    | none => none) = _
  rw [h]

lemma parseStringBody_plain (c : Char) (tail : List Char)
    (h1 : c ≠ '"') (h2 : c ≠ '\\') (h3 : ¬(c.toNat < 32)) :
    parseStringBody (c :: tail) = (parseStringBody tail).map (fun p => (c :: p.1, p.2)) := by
  rw [parseStringBody.eq_def]
  split
  · rename_i heq
    exact List.noConfusion heq
  · rename_i rest heq
    injection heq with e1 e2
    exact absurd e1 h1
  · rename_i a1 a2 a3 a4 rest heq
    injection heq with e1 e2
    exact absurd e1 h2
  · rename_i e rest heq
    injection heq with e1 e2
    exact absurd e1 h2
  · rename_i c2 rest heq
    injection heq with e1 e2
    subst e1
    subst e2
    rw [if_neg (by simpa using h3)]

lemma parseStringBody_escChar (c : Char) (tail : List Char) :
    parseStringBody (escapeChar c ++ tail) =
      (parseStringBody tail).map (fun p => (c :: p.1, p.2)) := by
  by_cases h1 : c = '"'
  · subst h1; rfl
  by_cases h2 : c = '\\'
  · subst h2; rfl
  by_cases h3 : c.toNat = 8
  · rw [char_eq_of_toNat c 8 h3]; rfl
  by_cases h4 : c = '\t'
  · subst h4; rfl
  by_cases h5 : c = '\n'
  · subst h5; rfl
  by_cases h6 : c.toNat = 12
  · rw [char_eq_of_toNat c 12 h6]; rfl
  by_cases h7 : c = '\r'
  · subst h7; rfl
  by_cases h8 : c.toNat < 32
  · rw [escapeChar]
    rw [if_neg (by simpa using h1), if_neg (by simpa using h2),
      if_neg (by simpa using h3), if_neg (by simpa using h4),
      if_neg (by simpa using h5), if_neg (by simpa using h6),
      if_neg (by simpa using h7), if_pos (by simpa using h8)]
    rw [show (['\\', 'u', '0', '0', hexDigitLower (c.toNat / 16),
        hexDigitLower (c.toNat % 16)] ++ tail) =
      ('\\' :: 'u' :: '0' :: '0' :: hexDigitLower (c.toNat / 16) ::
        hexDigitLower (c.toNat % 16) :: tail) from rfl]
    rw [parseStringBody_u _ _ (c.toNat / 16 * 16 + c.toNat % 16) tail
      (hex4_00 _ _ _ _ (hexVal_hexDigitLower _ (by omega))
        (hexVal_hexDigitLower _ (by omega)))]
    rw [show c.toNat / 16 * 16 + c.toNat % 16 = c.toNat from by omega, Char.ofNat_toNat]
  · rw [escapeChar]
    rw [if_neg (by simpa using h1), if_neg (by simpa using h2),
      if_neg (by simpa using h3), if_neg (by simpa using h4),
      if_neg (by simpa using h5), if_neg (by simpa using h6),
      if_neg (by simpa using h7), if_neg (by simpa using h8)]
    rw [show ([c] ++ tail) = c :: tail from rfl]
    exact parseStringBody_plain c tail h1 h2 h8

lemma parseStringBody_escList (l tail : List Char) :
    parseStringBody (escapeList l ++ ('"' :: tail)) = some (l, tail) := by
  induction l with
  | nil =>
      rw [show escapeList [] = [] from rfl, List.nil_append]
      rfl
  | cons c cs ih =>
      rw [escapeList, List.append_assoc, parseStringBody_escChar, ih]
      rfl

lemma parseValue_str (f : Nat) (s : String) (tail : List Char) :
    parseValue (f + 1) (quoteJson s ++ tail) = some (.str s, tail) := by
  rw [show quoteJson s ++ tail = '"' :: (escapeList s.data ++ ('"' :: tail)) from by
    simp [quoteJson, List.append_assoc]]
  rw [show parseValue (f + 1) ('"' :: (escapeList s.data ++ ('"' :: tail))) =
    (parseStringBody (escapeList s.data ++ ('"' :: tail))).map
      (fun p : List Char × List Char => (.str (String.mk p.1), p.2)) from rfl]
  rw [parseStringBody_escList]
  rfl

lemma parseFields_cons_eq (f : Nat) (acc : List (String × JsVal)) (rest : List Char) :
    parseFields (f + 1) acc ('"' :: rest) =
      Option.bind (parseStringBody rest) (fun kp =>
        match skipJsonWs kp.2 with
        | ':' :: r2 =>
            Option.bind (parseValue f (skipJsonWs r2)) (fun vp =>
              match skipJsonWs vp.2 with
              | ',' :: r4 => parseFields f (objSet acc (String.mk kp.1) vp.1) (skipJsonWs r4)
              | '}' :: r4 => some (objSet acc (String.mk kp.1) vp.1, r4)
              | _ => none)
        | _ => none) := rfl

lemma parseElems_cons_eq (f : Nat) (cs : List Char) :
    parseElems (f + 1) cs =
      Option.bind (parseValue f cs) (fun p =>
        match skipJsonWs p.2 with
        | ',' :: r2 =>
            Option.bind (parseElems f (skipJsonWs r2)) (fun q => some (p.1 :: q.1, q.2))
        | ']' :: r2 => some ([p.1], r2)
        | _ => none) := rfl

lemma parseValue_arr_eq (f : Nat) (rest : List Char) :
    parseValue (f + 1) ('[' :: rest) =
      (match skipJsonWs rest with
       | ']' :: r2 => some (.arr [], r2)
       | cs2 => (parseElems f cs2).map (fun p : List JsVal × List Char => (.arr p.1, p.2))) := rfl

lemma parseValue_obj_eq (f : Nat) (rest : List Char) :
    parseValue (f + 1) ('{' :: rest) =
      (match skipJsonWs rest with
       | '}' :: r2 => some (.obj [], r2)
       | cs2 => (parseFields f [] cs2).map
           (fun p : List (String × JsVal) × List Char => (.obj p.1, p.2))) := rfl

lemma parseFields_step (f : Nat) (acc : List (String × JsVal)) (k : List Char)
    (vs : List Char) (v : JsVal) (rem : List Char)
    (hv : parseValue f (skipJsonWs vs) = some (v, rem)) :
    parseFields (f + 1) acc ('"' :: (escapeList k ++ ('"' :: (':' :: vs)))) =
      (match skipJsonWs rem with
       | ',' :: r4 => parseFields f (objSet acc (String.mk k) v) (skipJsonWs r4)
       | '}' :: r4 => some (objSet acc (String.mk k) v, r4)
       | _ => none) := by
  rw [parseFields_cons_eq, parseStringBody_escList]
  show Option.bind (parseValue f (skipJsonWs vs)) (fun vp =>
      match skipJsonWs vp.2 with
      | ',' :: r4 => parseFields f (objSet acc (String.mk k) vp.1) (skipJsonWs r4)
      | '}' :: r4 => some (objSet acc (String.mk k) vp.1, r4)
      | _ => none) = _
  rw [hv]
  rfl
lemma serKw_append (k : KeywordEntry) (rest : List Char) :
    serKw k ++ rest = '{' :: ('"' :: (escapeList "word".data ++ ('"' :: (':' :: (quoteJson k.word ++ (',' :: '"' :: (escapeList "phonetic".data ++ ('"' :: (':' :: (quoteJson k.phonetic ++ (',' :: '"' :: (escapeList "roots".data ++ ('"' :: (':' :: (quoteJson k.roots ++ (',' :: '"' :: (escapeList "origin".data ++ ('"' :: (':' :: (quoteJson k.origin ++ (',' :: '"' :: (escapeList "meaning".data ++ ('"' :: (':' :: (quoteJson k.meaning ++ ('}' :: rest)))))))))))))))))))))))))) := by
  simp [serKw, quoteJson, List.append_assoc]

lemma serKw_roundtrip (f : Nat) (k : KeywordEntry) (rest : List Char) :
    parseValue (f + 7) (serKw k ++ rest) = some (kwToJson k, rest) := by
  rw [serKw_append]
  rw [show (f + 7) = (f + 6) + 1 from rfl]
  rw [parseValue_obj_eq]
  show (parseFields (f + 6) [] ('"' :: (escapeList "word".data ++ ('"' :: (':' :: (quoteJson k.word ++ (',' :: '"' :: (escapeList "phonetic".data ++ ('"' :: (':' :: (quoteJson k.phonetic ++ (',' :: '"' :: (escapeList "roots".data ++ ('"' :: (':' :: (quoteJson k.roots ++ (',' :: '"' :: (escapeList "origin".data ++ ('"' :: (':' :: (quoteJson k.origin ++ (',' :: '"' :: (escapeList "meaning".data ++ ('"' :: (':' :: (quoteJson k.meaning ++ ('}' :: rest))))))))))))))))))))))))))).map
    (fun p : List (String × JsVal) × List Char => (JsVal.obj p.1, p.2)) = _
  rw [show (f + 6) = (f + 5) + 1 from rfl]
  rw [parseFields_step (f + 5) _ "word".data (quoteJson k.word ++ (',' :: ('"' :: (escapeList "phonetic".data ++ ('"' :: (':' :: (quoteJson k.phonetic ++ (',' :: '"' :: (escapeList "roots".data ++ ('"' :: (':' :: (quoteJson k.roots ++ (',' :: '"' :: (escapeList "origin".data ++ ('"' :: (':' :: (quoteJson k.origin ++ (',' :: '"' :: (escapeList "meaning".data ++ ('"' :: (':' :: (quoteJson k.meaning ++ ('}' :: rest))))))))))))))))))))))) (.str k.word)
    (',' :: ('"' :: (escapeList "phonetic".data ++ ('"' :: (':' :: (quoteJson k.phonetic ++ (',' :: '"' :: (escapeList "roots".data ++ ('"' :: (':' :: (quoteJson k.roots ++ (',' :: '"' :: (escapeList "origin".data ++ ('"' :: (':' :: (quoteJson k.origin ++ (',' :: '"' :: (escapeList "meaning".data ++ ('"' :: (':' :: (quoteJson k.meaning ++ ('}' :: rest)))))))))))))))))))))) (by
      rw [show skipJsonWs (quoteJson k.word ++ (',' :: ('"' :: (escapeList "phonetic".data ++ ('"' :: (':' :: (quoteJson k.phonetic ++ (',' :: '"' :: (escapeList "roots".data ++ ('"' :: (':' :: (quoteJson k.roots ++ (',' :: '"' :: (escapeList "origin".data ++ ('"' :: (':' :: (quoteJson k.origin ++ (',' :: '"' :: (escapeList "meaning".data ++ ('"' :: (':' :: (quoteJson k.meaning ++ ('}' :: rest))))))))))))))))))))))) = quoteJson k.word ++ (',' :: ('"' :: (escapeList "phonetic".data ++ ('"' :: (':' :: (quoteJson k.phonetic ++ (',' :: '"' :: (escapeList "roots".data ++ ('"' :: (':' :: (quoteJson k.roots ++ (',' :: '"' :: (escapeList "origin".data ++ ('"' :: (':' :: (quoteJson k.origin ++ (',' :: '"' :: (escapeList "meaning".data ++ ('"' :: (':' :: (quoteJson k.meaning ++ ('}' :: rest)))))))))))))))))))))) from rfl]
      exact parseValue_str (f + 4) k.word (',' :: ('"' :: (escapeList "phonetic".data ++ ('"' :: (':' :: (quoteJson k.phonetic ++ (',' :: '"' :: (escapeList "roots".data ++ ('"' :: (':' :: (quoteJson k.roots ++ (',' :: '"' :: (escapeList "origin".data ++ ('"' :: (':' :: (quoteJson k.origin ++ (',' :: '"' :: (escapeList "meaning".data ++ ('"' :: (':' :: (quoteJson k.meaning ++ ('}' :: rest)))))))))))))))))))))))]
  show (parseFields (f + 5) _ (skipJsonWs ('"' :: (escapeList "phonetic".data ++ ('"' :: (':' :: (quoteJson k.phonetic ++ (',' :: '"' :: (escapeList "roots".data ++ ('"' :: (':' :: (quoteJson k.roots ++ (',' :: '"' :: (escapeList "origin".data ++ ('"' :: (':' :: (quoteJson k.origin ++ (',' :: '"' :: (escapeList "meaning".data ++ ('"' :: (':' :: (quoteJson k.meaning ++ ('}' :: rest))))))))))))))))))))))).map
    (fun p : List (String × JsVal) × List Char => (JsVal.obj p.1, p.2)) = _
  rw [show skipJsonWs ('"' :: (escapeList "phonetic".data ++ ('"' :: (':' :: (quoteJson k.phonetic ++ (',' :: '"' :: (escapeList "roots".data ++ ('"' :: (':' :: (quoteJson k.roots ++ (',' :: '"' :: (escapeList "origin".data ++ ('"' :: (':' :: (quoteJson k.origin ++ (',' :: '"' :: (escapeList "meaning".data ++ ('"' :: (':' :: (quoteJson k.meaning ++ ('}' :: rest))))))))))))))))))))) = ('"' :: (escapeList "phonetic".data ++ ('"' :: (':' :: (quoteJson k.phonetic ++ (',' :: '"' :: (escapeList "roots".data ++ ('"' :: (':' :: (quoteJson k.roots ++ (',' :: '"' :: (escapeList "origin".data ++ ('"' :: (':' :: (quoteJson k.origin ++ (',' :: '"' :: (escapeList "meaning".data ++ ('"' :: (':' :: (quoteJson k.meaning ++ ('}' :: rest))))))))))))))))))))) from rfl]
  rw [show (f + 5) = (f + 4) + 1 from rfl]
  rw [parseFields_step (f + 4) _ "phonetic".data (quoteJson k.phonetic ++ (',' :: ('"' :: (escapeList "roots".data ++ ('"' :: (':' :: (quoteJson k.roots ++ (',' :: '"' :: (escapeList "origin".data ++ ('"' :: (':' :: (quoteJson k.origin ++ (',' :: '"' :: (escapeList "meaning".data ++ ('"' :: (':' :: (quoteJson k.meaning ++ ('}' :: rest)))))))))))))))))) (.str k.phonetic)
    (',' :: ('"' :: (escapeList "roots".data ++ ('"' :: (':' :: (quoteJson k.roots ++ (',' :: '"' :: (escapeList "origin".data ++ ('"' :: (':' :: (quoteJson k.origin ++ (',' :: '"' :: (escapeList "meaning".data ++ ('"' :: (':' :: (quoteJson k.meaning ++ ('}' :: rest))))))))))))))))) (by
      rw [show skipJsonWs (quoteJson k.phonetic ++ (',' :: ('"' :: (escapeList "roots".data ++ ('"' :: (':' :: (quoteJson k.roots ++ (',' :: '"' :: (escapeList "origin".data ++ ('"' :: (':' :: (quoteJson k.origin ++ (',' :: '"' :: (escapeList "meaning".data ++ ('"' :: (':' :: (quoteJson k.meaning ++ ('}' :: rest)))))))))))))))))) = quoteJson k.phonetic ++ (',' :: ('"' :: (escapeList "roots".data ++ ('"' :: (':' :: (quoteJson k.roots ++ (',' :: '"' :: (escapeList "origin".data ++ ('"' :: (':' :: (quoteJson k.origin ++ (',' :: '"' :: (escapeList "meaning".data ++ ('"' :: (':' :: (quoteJson k.meaning ++ ('}' :: rest))))))))))))))))) from rfl]
      exact parseValue_str (f + 3) k.phonetic (',' :: ('"' :: (escapeList "roots".data ++ ('"' :: (':' :: (quoteJson k.roots ++ (',' :: '"' :: (escapeList "origin".data ++ ('"' :: (':' :: (quoteJson k.origin ++ (',' :: '"' :: (escapeList "meaning".data ++ ('"' :: (':' :: (quoteJson k.meaning ++ ('}' :: rest))))))))))))))))))]
  show (parseFields (f + 4) _ (skipJsonWs ('"' :: (escapeList "roots".data ++ ('"' :: (':' :: (quoteJson k.roots ++ (',' :: '"' :: (escapeList "origin".data ++ ('"' :: (':' :: (quoteJson k.origin ++ (',' :: '"' :: (escapeList "meaning".data ++ ('"' :: (':' :: (quoteJson k.meaning ++ ('}' :: rest)))))))))))))))))).map
    (fun p : List (String × JsVal) × List Char => (JsVal.obj p.1, p.2)) = _
  rw [show skipJsonWs ('"' :: (escapeList "roots".data ++ ('"' :: (':' :: (quoteJson k.roots ++ (',' :: '"' :: (escapeList "origin".data ++ ('"' :: (':' :: (quoteJson k.origin ++ (',' :: '"' :: (escapeList "meaning".data ++ ('"' :: (':' :: (quoteJson k.meaning ++ ('}' :: rest)))))))))))))))) = ('"' :: (escapeList "roots".data ++ ('"' :: (':' :: (quoteJson k.roots ++ (',' :: '"' :: (escapeList "origin".data ++ ('"' :: (':' :: (quoteJson k.origin ++ (',' :: '"' :: (escapeList "meaning".data ++ ('"' :: (':' :: (quoteJson k.meaning ++ ('}' :: rest)))))))))))))))) from rfl]
  rw [show (f + 4) = (f + 3) + 1 from rfl]
  rw [parseFields_step (f + 3) _ "roots".data (quoteJson k.roots ++ (',' :: ('"' :: (escapeList "origin".data ++ ('"' :: (':' :: (quoteJson k.origin ++ (',' :: '"' :: (escapeList "meaning".data ++ ('"' :: (':' :: (quoteJson k.meaning ++ ('}' :: rest))))))))))))) (.str k.roots)
    (',' :: ('"' :: (escapeList "origin".data ++ ('"' :: (':' :: (quoteJson k.origin ++ (',' :: '"' :: (escapeList "meaning".data ++ ('"' :: (':' :: (quoteJson k.meaning ++ ('}' :: rest)))))))))))) (by
      rw [show skipJsonWs (quoteJson k.roots ++ (',' :: ('"' :: (escapeList "origin".data ++ ('"' :: (':' :: (quoteJson k.origin ++ (',' :: '"' :: (escapeList "meaning".data ++ ('"' :: (':' :: (quoteJson k.meaning ++ ('}' :: rest))))))))))))) = quoteJson k.roots ++ (',' :: ('"' :: (escapeList "origin".data ++ ('"' :: (':' :: (quoteJson k.origin ++ (',' :: '"' :: (escapeList "meaning".data ++ ('"' :: (':' :: (quoteJson k.meaning ++ ('}' :: rest)))))))))))) from rfl]
      exact parseValue_str (f + 2) k.roots (',' :: ('"' :: (escapeList "origin".data ++ ('"' :: (':' :: (quoteJson k.origin ++ (',' :: '"' :: (escapeList "meaning".data ++ ('"' :: (':' :: (quoteJson k.meaning ++ ('}' :: rest)))))))))))))]
  show (parseFields (f + 3) _ (skipJsonWs ('"' :: (escapeList "origin".data ++ ('"' :: (':' :: (quoteJson k.origin ++ (',' :: '"' :: (escapeList "meaning".data ++ ('"' :: (':' :: (quoteJson k.meaning ++ ('}' :: rest))))))))))))).map
    (fun p : List (String × JsVal) × List Char => (JsVal.obj p.1, p.2)) = _
  rw [show skipJsonWs ('"' :: (escapeList "origin".data ++ ('"' :: (':' :: (quoteJson k.origin ++ (',' :: '"' :: (escapeList "meaning".data ++ ('"' :: (':' :: (quoteJson k.meaning ++ ('}' :: rest))))))))))) = ('"' :: (escapeList "origin".data ++ ('"' :: (':' :: (quoteJson k.origin ++ (',' :: '"' :: (escapeList "meaning".data ++ ('"' :: (':' :: (quoteJson k.meaning ++ ('}' :: rest))))))))))) from rfl]
  rw [show (f + 3) = (f + 2) + 1 from rfl]
  rw [parseFields_step (f + 2) _ "origin".data (quoteJson k.origin ++ (',' :: ('"' :: (escapeList "meaning".data ++ ('"' :: (':' :: (quoteJson k.meaning ++ ('}' :: rest)))))))) (.str k.origin)
    (',' :: ('"' :: (escapeList "meaning".data ++ ('"' :: (':' :: (quoteJson k.meaning ++ ('}' :: rest))))))) (by
      rw [show skipJsonWs (quoteJson k.origin ++ (',' :: ('"' :: (escapeList "meaning".data ++ ('"' :: (':' :: (quoteJson k.meaning ++ ('}' :: rest)))))))) = quoteJson k.origin ++ (',' :: ('"' :: (escapeList "meaning".data ++ ('"' :: (':' :: (quoteJson k.meaning ++ ('}' :: rest))))))) from rfl]
      exact parseValue_str (f + 1) k.origin (',' :: ('"' :: (escapeList "meaning".data ++ ('"' :: (':' :: (quoteJson k.meaning ++ ('}' :: rest))))))))]
  show (parseFields (f + 2) _ (skipJsonWs ('"' :: (escapeList "meaning".data ++ ('"' :: (':' :: (quoteJson k.meaning ++ ('}' :: rest)))))))).map
    (fun p : List (String × JsVal) × List Char => (JsVal.obj p.1, p.2)) = _
  rw [show skipJsonWs ('"' :: (escapeList "meaning".data ++ ('"' :: (':' :: (quoteJson k.meaning ++ ('}' :: rest)))))) = ('"' :: (escapeList "meaning".data ++ ('"' :: (':' :: (quoteJson k.meaning ++ ('}' :: rest)))))) from rfl]
  rw [show (f + 2) = (f + 1) + 1 from rfl]
  rw [parseFields_step (f + 1) _ "meaning".data (quoteJson k.meaning ++ ('}' :: rest)) (.str k.meaning)
    ('}' :: (rest)) (by
      rw [show skipJsonWs (quoteJson k.meaning ++ ('}' :: rest)) = quoteJson k.meaning ++ ('}' :: rest) from rfl]
      exact parseValue_str (f + 0) k.meaning ('}' :: (rest)))]
  rfl

lemma serKwList_cons_head (k : KeywordEntry) (ks : List KeywordEntry) :
    ∃ Z, serKwList (k :: ks) = '{' :: Z := by
  cases ks with
  | nil => exact ⟨_, rfl⟩
  | cons a b => exact ⟨_, rfl⟩

lemma serElems_roundtrip (ks : List KeywordEntry) : ∀ (f : Nat) (k : KeywordEntry)
    (rest : List Char),
    parseElems (f + 8 * ks.length + 8) (serKwList (k :: ks) ++ (']' :: rest)) =
      some ((k :: ks).map kwToJson, rest) := by
  induction ks with
  | nil =>
      intro f k rest
      rw [show f + 8 * ([] : List KeywordEntry).length + 8 = (f + 7) + 1 from by simp]
      rw [parseElems_cons_eq]
      rw [show serKwList [k] = serKw k from rfl]
      rw [show (f + 7) = f + 7 from rfl, serKw_roundtrip f k (']' :: rest)]
      rfl
  | cons k2 ks2 ih =>
      intro f k rest
      rw [show f + 8 * (k2 :: ks2).length + 8 = (f + 8 * ks2.length + 15) + 1 from by
        simp [List.length_cons]
        omega]
      rw [parseElems_cons_eq]
      rw [show serKwList (k :: k2 :: ks2) ++ (']' :: rest) =
        serKw k ++ (',' :: (serKwList (k2 :: ks2) ++ (']' :: rest))) from by
          simp [serKwList, List.append_assoc]]
      rw [show f + 8 * ks2.length + 15 = (f + 8 * ks2.length + 8) + 7 from by omega]
      rw [serKw_roundtrip (f + 8 * ks2.length + 8) k
        (',' :: (serKwList (k2 :: ks2) ++ (']' :: rest)))]
      show Option.bind (parseElems ((f + 8 * ks2.length + 8) + 7)
          (skipJsonWs (serKwList (k2 :: ks2) ++ (']' :: rest))))
        (fun q => some (kwToJson k :: q.1, q.2)) = _
      obtain ⟨Z, hZ⟩ := serKwList_cons_head k2 ks2
      rw [hZ]
      rw [show skipJsonWs (('{' :: Z) ++ (']' :: rest)) = ('{' :: Z) ++ (']' :: rest) from rfl]
      rw [← hZ]
      rw [show (f + 8 * ks2.length + 8) + 7 = (f + 7) + 8 * ks2.length + 8 from by omega]
      rw [ih (f + 7) k2 rest]
      rfl

lemma serArr_roundtrip (f : Nat) (l : List KeywordEntry) (rest : List Char) :
    parseValue (f + 8 * l.length + 1) ('[' :: (serKwList l ++ (']' :: rest))) =
      some (.arr (l.map kwToJson), rest) := by
  cases l with
  | nil =>
      rw [show f + 8 * ([] : List KeywordEntry).length + 1 = f + 1 from by simp]
      rw [parseValue_arr_eq]
      rfl
  | cons k ks =>
      rw [show f + 8 * (k :: ks).length + 1 = (f + 8 * ks.length + 8) + 1 from by
        simp [List.length_cons]
        omega]
      rw [parseValue_arr_eq]
      obtain ⟨Z, hZ⟩ := serKwList_cons_head k ks
      rw [hZ]
      show (parseElems (f + 8 * ks.length + 8) (('{' :: Z) ++ (']' :: rest))).map
        (fun p : List JsVal × List Char => (JsVal.arr p.1, p.2)) = _
      rw [← hZ]
      rw [serElems_roundtrip ks (f) k rest]
      rfl

lemma serializeResult_append (r : AnalysisResult) (rest : List Char) :
    serializeResult r ++ rest =
      '{' :: ( '"' :: (escapeList "translation".data ++ ('"' :: (':' :: (quoteJson r.translation ++ (',' :: ('"' :: (escapeList "keywords".data ++ ('"' :: (':' :: ('[' :: (serKwList r.keywords ++ (']' :: ('}' :: rest)))))))))))))) := by
  simp [serializeResult, quoteJson, List.append_assoc]

lemma ser_roundtrip (f : Nat) (r : AnalysisResult) (rest : List Char) :
    parseValue (f + 8 * r.keywords.length + 4) (serializeResult r ++ rest) =
      some (resultToJson r, rest) := by
  rw [serializeResult_append]
  rw [show f + 8 * r.keywords.length + 4 = (f + 8 * r.keywords.length + 3) + 1 from rfl]
  rw [parseValue_obj_eq]
  show (parseFields (f + 8 * r.keywords.length + 3) [] ( '"' :: (escapeList "translation".data ++ ('"' :: (':' :: (quoteJson r.translation ++ (',' :: ('"' :: (escapeList "keywords".data ++ ('"' :: (':' :: ('[' :: (serKwList r.keywords ++ (']' :: ('}' :: rest))))))))))))))).map
    (fun p : List (String × JsVal) × List Char => (JsVal.obj p.1, p.2)) = _
  rw [show f + 8 * r.keywords.length + 3 = (f + 8 * r.keywords.length + 2) + 1 from rfl]
  rw [parseFields_step (f + 8 * r.keywords.length + 2) _ "translation".data
    (quoteJson r.translation ++ (',' :: ('"' :: (escapeList "keywords".data ++ ('"' :: (':' :: ('[' :: (serKwList r.keywords ++ (']' :: ('}' :: rest)))))))))) (.str r.translation) (',' :: ('"' :: (escapeList "keywords".data ++ ('"' :: (':' :: ('[' :: (serKwList r.keywords ++ (']' :: ('}' :: rest)))))))))
    (by
      rw [show skipJsonWs (quoteJson r.translation ++ (',' :: ('"' :: (escapeList "keywords".data ++ ('"' :: (':' :: ('[' :: (serKwList r.keywords ++ (']' :: ('}' :: rest)))))))))) =
        quoteJson r.translation ++ (',' :: ('"' :: (escapeList "keywords".data ++ ('"' :: (':' :: ('[' :: (serKwList r.keywords ++ (']' :: ('}' :: rest))))))))) from rfl]
      exact parseValue_str (f + 8 * r.keywords.length + 1) r.translation (',' :: ('"' :: (escapeList "keywords".data ++ ('"' :: (':' :: ('[' :: (serKwList r.keywords ++ (']' :: ('}' :: rest))))))))))]
  show (parseFields (f + 8 * r.keywords.length + 2) _ (skipJsonWs ('"' :: (escapeList "keywords".data ++ ('"' :: (':' :: ('[' :: (serKwList r.keywords ++ (']' :: ('}' :: rest)))))))))).map
    (fun p : List (String × JsVal) × List Char => (JsVal.obj p.1, p.2)) = _
  rw [show skipJsonWs ('"' :: (escapeList "keywords".data ++ ('"' :: (':' :: ('[' :: (serKwList r.keywords ++ (']' :: ('}' :: rest)))))))) = ('"' :: (escapeList "keywords".data ++ ('"' :: (':' :: ('[' :: (serKwList r.keywords ++ (']' :: ('}' :: rest)))))))) from rfl]
  rw [show f + 8 * r.keywords.length + 2 = (f + 8 * r.keywords.length + 1) + 1 from rfl]
  rw [parseFields_step (f + 8 * r.keywords.length + 1) _ "keywords".data
    ('[' :: (serKwList r.keywords ++ (']' :: ('}' :: rest))))
    (.arr (r.keywords.map kwToJson)) ('}' :: rest)
    (by
      rw [show skipJsonWs ('[' :: (serKwList r.keywords ++ (']' :: ('}' :: rest)))) =
        '[' :: (serKwList r.keywords ++ (']' :: ('}' :: rest))) from rfl]
      exact serArr_roundtrip f r.keywords ('}' :: rest))]
  rfl

lemma serKw_length (k : KeywordEntry) : 8 ≤ (serKw k).length := by
  simp [serKw, quoteJson, List.length_append]
  omega

lemma serKwList_length (l : List KeywordEntry) : 8 * l.length ≤ (serKwList l).length := by
  induction l with
  | nil => simp [serKwList]
  | cons k ks ih =>
      cases ks with
      | nil =>
          have := serKw_length k
          simp [serKwList]
          omega
      | cons a b =>
          rw [show serKwList (k :: a :: b) = serKw k ++ ',' :: serKwList (a :: b) from rfl]
          have h1 := serKw_length k
          simp only [List.length_append, List.length_cons, List.length_cons] at *
          omega

lemma serializeResult_length (r : AnalysisResult) :
    8 * r.keywords.length + 4 ≤ (serializeResult r).length := by
  have h := serKwList_length r.keywords
  simp [serializeResult, quoteJson, List.length_append]
  omega

lemma jsonParse_ser (r : AnalysisResult) :
    jsonParse (serializeResult r) = some (resultToJson r) := by
  rw [jsonParse]
  rw [show skipJsonWs (serializeResult r) = serializeResult r from rfl]
  have hlen := serializeResult_length r
  rw [show (serializeResult r).length + 1 =
    ((serializeResult r).length + 1 - (8 * r.keywords.length + 4)) +
      8 * r.keywords.length + 4 from by omega]
  have h2 := ser_roundtrip ((serializeResult r).length + 1 - (8 * r.keywords.length + 4)) r []
  rw [List.append_nil] at h2
  rw [h2]
  rfl

lemma jsOrEmpty_str (w : String) : jsOrEmpty (some (.str w)) = .str w := by
  by_cases h : w = ""
  · subst h; rfl
  · simp [jsOrEmpty, JsVal.truthy, h]

lemma objSet_id (f : List (String × JsVal)) (k : String) (v : JsVal)
    (h : objGet f k = some v) : objSet f k v = f := by
  induction f with
  | nil => simp [objGet] at h
  | cons hd tl ih =>
      obtain ⟨k2, v2⟩ := hd
      by_cases he : k2 = k
      · subst he
        rw [objGet] at h
        rw [if_pos (by simp)] at h
        rw [objSet, if_pos (by simp)]
        rw [Option.some.inj h]
      · rw [objGet] at h
        rw [if_neg (by simpa using he)] at h
        rw [objSet, if_neg (by simpa using he), ih h]

lemma specRepairEntry_kw (k : KeywordEntry) : specRepairEntry (kwToJson k) = kwToJson k := by
  show JsVal.obj [("word", jsOrEmpty (some (.str k.word))),
    ("phonetic", jsOrEmpty (some (.str k.phonetic))),
    ("roots", jsOrEmpty (some (.str k.roots))),
    ("origin", jsOrEmpty (some (.str k.origin))),
    ("meaning", jsOrEmpty (some (.str k.meaning)))] = kwToJson k
  rw [jsOrEmpty_str, jsOrEmpty_str, jsOrEmpty_str, jsOrEmpty_str, jsOrEmpty_str]
  rfl

lemma hasNullElem_map_kw (l : List KeywordEntry) : hasNullElem (l.map kwToJson) = false := by
  induction l with
  | nil => rfl
  | cons k ks ih =>
      rw [List.map, hasNullElem_cons_ne _ _ (by simp [kwToJson]), ih]

lemma map_specRepair_kw (l : List KeywordEntry) :
    (l.map kwToJson).map specRepairEntry = l.map kwToJson := by
  induction l with
  | nil => rfl
  | cons k ks ih =>
      rw [List.map, List.map, specRepairEntry_kw, ih]

lemma coerceParsed_resultToJson (r : AnalysisResult) (h : r.keywords.length ≤ 5) :
    coerceParsed (resultToJson r) = .ok (resultToJson r) := by
  rw [show resultToJson r = .obj [("translation", .str r.translation),
    ("keywords", .arr (r.keywords.map kwToJson))] from rfl]
  rw [coerceParsed_eq]
  have hfix : fixTranslation (.obj [("translation", JsVal.str r.translation),
      ("keywords", .arr (r.keywords.map kwToJson))]) =
      .obj [("translation", JsVal.str r.translation),
        ("keywords", .arr (r.keywords.map kwToJson))] := by
    by_cases ht : r.translation = ""
    · rw [ht]; rfl
    · have htr : jsOptTruthy (jsGetND (JsVal.obj [("translation", JsVal.str r.translation),
          ("keywords", JsVal.arr (r.keywords.map kwToJson))]) "translation") = true := by
        show jsOptTruthy (some (.str r.translation)) = true
        simp [jsOptTruthy, JsVal.truthy, ht]
      rw [fixTranslation, if_pos htr]
  rw [hfix]
  show (do
    let mapped ← mapExcept coerceKeyword (r.keywords.map kwToJson)
    pure (jsSet (JsVal.obj [("translation", JsVal.str r.translation),
      ("keywords", JsVal.arr (r.keywords.map kwToJson))]) "keywords"
      (.arr (mapped.take 5))) : Except String JsVal) = _
  rw [mapExcept_coerce_ok _ (hasNullElem_map_kw r.keywords), map_specRepair_kw]
  show Except.ok (jsSet (JsVal.obj [("translation", JsVal.str r.translation),
    ("keywords", JsVal.arr (r.keywords.map kwToJson))]) "keywords"
    (.arr ((r.keywords.map kwToJson).take 5))) = _
  rw [show (r.keywords.map kwToJson).take 5 = r.keywords.map kwToJson from
    List.take_of_length_le (by simpa using h)]
  rw [show jsSet (JsVal.obj [("translation", JsVal.str r.translation),
      ("keywords", JsVal.arr (r.keywords.map kwToJson))]) "keywords"
      (.arr (r.keywords.map kwToJson)) =
    .obj (objSet [("translation", JsVal.str r.translation),
      ("keywords", JsVal.arr (r.keywords.map kwToJson))] "keywords"
      (.arr (r.keywords.map kwToJson))) from rfl]
  rw [objSet_id [("translation", JsVal.str r.translation),
    ("keywords", JsVal.arr (r.keywords.map kwToJson))] "keywords"
    (JsVal.arr (r.keywords.map kwToJson)) rfl]

lemma jsTrim_ser (A : List Char) : jsTrim ('{' :: (A ++ ['}'])) = '{' :: (A ++ ['}']) := by
  rw [jsTrim, dropWhile_cons_of_neg _ _ _ (show isJsWs '{' = false from rfl)]
  have hrev : ('{' :: (A ++ ['}'])).reverse = '}' :: (A.reverse ++ ['{']) := by simp
  rw [hrev, dropWhile_cons_of_neg _ _ _ (show isJsWs '}' = false from rfl), ← hrev,
    List.reverse_reverse]

lemma stripFences_ser (A : List Char) :
    stripFences ('{' :: (A ++ ['}'])) = '{' :: (A ++ ['}']) := by
  have h1 : stripLeadJson ('{' :: (A ++ ['}'])) = '{' :: (A ++ ['}']) := rfl
  have h2 : stripLeadBare ('{' :: (A ++ ['}'])) = '{' :: (A ++ ['}']) := rfl
  have h3 : stripTrail ('{' :: (A ++ ['}'])) = '{' :: (A ++ ['}']) := by
    rw [stripTrail]
    have hrev : ('{' :: (A ++ ['}'])).reverse = '}' :: (A.reverse ++ ['{']) := by simp
    rw [hrev]
    rw [show dropPrefixCI fenceBare ('}' :: (A.reverse ++ ['{'])) = none from rfl]
  rw [stripFences, h1, h2, h3]

lemma braceSpan_ser (A : List Char) :
    braceSpan ('{' :: (A ++ ['}'])) = some ('{' :: (A ++ ['}'])) := by
  rw [braceSpan, dropWhile_cons_of_neg (fun c => !(c == '{')) '{' (A ++ ['}']) rfl]
  show (match (('{' :: (A ++ ['}'])).reverse.dropWhile (fun c => !(c == '}'))).reverse with
    | [] => (none : Option (List Char))
    | u => some u) = _
  have hrev : ('{' :: (A ++ ['}'])).reverse = '}' :: (A.reverse ++ ['{']) := by simp
  rw [hrev, dropWhile_cons_of_neg (fun c => !(c == '}')) '}' (A.reverse ++ ['{']) rfl,
    ← hrev, List.reverse_reverse]

/-- C9: normalizing the canonical JSON serialization of an already canonical
AnalysisResult (string translation, at most five keyword entries of five
string fields each) succeeds and returns exactly the canonical object
again. -/
theorem c9_normalize_idempotent (r : AnalysisResult) (h : r.keywords.length ≤ 5) :
    parseAIResponse (String.mk (serializeResult r)) = .ok (resultToJson r) := by
  obtain ⟨A, hA⟩ : ∃ A, serializeResult r = '{' :: (A ++ ['}']) := ⟨_, rfl⟩
  rw [parseAIResponse_eqn]
  rw [show extractCandidate (String.mk (serializeResult r)) = some (serializeResult r) from by
    rw [extractCandidate]
    rw [show (String.mk (serializeResult r)).data = serializeResult r from rfl]
    rw [hA, jsTrim_ser, stripFences_ser, braceSpan_ser]]
  show parseCandidate (serializeResult r) = _
  rw [parseCandidate, jsonParse_ser]
  show (match coerceParsed (resultToJson r) with
    | .error m =>
        (.error (.parseError ("Failed to parse AI response: " ++ m)) : Except CoreError JsVal)
    | .ok r2 => .ok r2) = _
  rw [coerceParsed_resultToJson r h]

theorem c9_witness :
    parseAIResponse (String.mk (serializeResult
      ⟨"hola", [⟨"w", "f", "rt", "o", "m"⟩]⟩)) =
      .ok (resultToJson ⟨"hola", [⟨"w", "f", "rt", "o", "m"⟩]⟩) :=
  c9_normalize_idempotent ⟨"hola", [⟨"w", "f", "rt", "o", "m"⟩]⟩ (by decide)
